import Mathlib

/-!
# Verification of the rasa rule store and agent loop

Shallow embedding of the core of the rasa browser extension:
the per-domain CSS rule store (`src/lib/storage.ts`, deterministic-id
variant), the selector normalizer (`selectorToId`), the in-memory
snapshot/undo manager and undo handler (background script), and the
agent tool-calling loops (the Anthropic-shaped loop in `src/lib/ai.ts`
and the Gemini-shaped loop with its 500-retry logic).

Timestamps (`Date.now()`) are modelled as an explicit `now : Nat`
argument threaded into each storage-level operation.  Strings are Lean
`String`s; JavaScript `undefined`-able fields are `Option`s.
-/

set_option maxHeartbeats 1000000

namespace Rasa

/-- Provenance tag (`'ai' | 'user'`) of a rule, from the `StyleRule` type. -/
inductive Provenance where
  | ai
  | user
deriving DecidableEq, Repr

/-- `StyleRule` from `src/types`: one CSS rule with identity and provenance.
`updatedBy` is an optional field in the source (absent on a freshly
created rule), hence `Option Provenance`. -/
structure StyleRule where
  id : String
  selector : String
  css : String
  description : Option String
  createdBy : Provenance
  updatedBy : Option Provenance
  createdAt : Nat
  updatedAt : Nat
deriving DecidableEq, Repr

/-- `SiteStyles` from `src/types`: the per-domain aggregate root. -/
structure SiteStyles where
  domain : String
  rules : List StyleRule
  enabled : Bool
  createdAt : Nat
  updatedAt : Nat
deriving DecidableEq, Repr

/-- `LegacySiteStyles`: the legacy single-CSS-string record that may be
found in storage and is migrated on read. -/
structure LegacySiteStyles where
  domain : String
  css : String
  enabled : Bool
  createdAt : Nat
  updatedAt : Nat
deriving DecidableEq, Repr

/-- What is stored in `chrome.storage.local` under one domain key:
either a modern rules-based aggregate or a legacy record
(`isLegacyFormat` in the source distinguishes them by shape). -/
inductive StoredSite where
  | modern (s : SiteStyles)
  | legacy (l : LegacySiteStyles)
deriving DecidableEq, Repr

/-- The storage slot for one fixed domain (`allStyles[domain]`):
`none` when no record exists. All operations in scope are per-domain
read-modify-write, so one slot suffices. -/
abbrev DomainState := Option StoredSite

/-! ## Selector normalizer (`selectorToId`, storage.ts deterministic variant) -/

/-- ASCII whitespace, the model of the JavaScript `\s` character class
(restricted to the ASCII characters that occur in CSS selectors). -/
def isWs (c : Char) : Bool :=
  c = ' ' || c = '\t' || c = '\n' || c = '\r'

/-- Model of JavaScript `String.prototype.trim`: drop whitespace from
both ends of the character list. -/
def trimChars (l : List Char) : List Char :=
  ((l.dropWhile isWs).reverse.dropWhile isWs).reverse

/-- Model of `replace(/\s+/g, ' ')`: every maximal run of whitespace
characters becomes a single space. Written with two-character lookahead,
mirroring the left-to-right regex scan: a whitespace character followed
by another whitespace character is absorbed into the run. -/
def collapseWs : List Char → List Char
  | [] => []
  | [c] => if isWs c then [' '] else [c]
  | c :: d :: rest =>
      if isWs c && isWs d then collapseWs (d :: rest)
      else (if isWs c then ' ' else c) :: collapseWs (d :: rest)

/-- Model of `String.prototype.split(',')` on the character list:
every comma splits, consecutive commas produce empty segments, and the
result is never empty (`"".split(',')` is `[""]`). -/
def splitOnComma : List Char → List (List Char)
  | [] => [[]]
  | c :: rest =>
      if c = ',' then [] :: splitOnComma rest
      else match splitOnComma rest with
        | [] => [[c]]
        | seg :: segs => (c :: seg) :: segs

/-- Lexicographic comparison of segments, the model of the default
`Array.prototype.sort()` string comparison (UTF-16 code-unit order,
which agrees with code-point order on the characters CSS selectors are
made of). -/
def charListLt : List Char → List Char → Bool
  | [], [] => false
  | [], _ :: _ => true
  | _ :: _, [] => false
  | a :: as, b :: bs => if a < b then true else if b < a then false else charListLt as bs

/-- Non-strict lexicographic comparison. -/
def charListLe (a b : List Char) : Bool := ! charListLt b a

/-- Insert a segment into an already sorted list of segments. -/
def insertSorted (s : List Char) : List (List Char) → List (List Char)
  | [] => [s]
  | t :: ts => if charListLe s t then s :: t :: ts else t :: insertSorted s ts

/-- Model of `Array.prototype.sort()` (default string comparison): a
comparison sort; with a total order and value semantics any comparison
sort yields the same sorted output, so insertion sort is used. -/
def sortSegs (l : List (List Char)) : List (List Char) := l.foldr insertSorted []

/-- Model of `Array.prototype.join(sep)`. -/
def joinWith (sep : List Char) : List (List Char) → List Char
  | [] => []
  | [x] => x
  | x :: y :: rest => x ++ sep ++ joinWith sep (y :: rest)

/-- `selectorToId` from storage.ts (deterministic-id variant):

```ts
return selector
  .split(',')
  .map(s => s.trim().replace(/\s+/g, ' '))
  .sort()
  .join(', ');
```
-/
def selectorToId (selector : String) : String :=
  ⟨joinWith [',', ' ']
    (sortSegs ((splitOnComma selector.data).map (fun seg => collapseWs (trimChars seg))))⟩

/-! ### Reference definition from the spec (§4.1)

"split on top-level commas (selector lists), trim each segment,
collapse internal whitespace runs to single spaces, sort the segments
lexicographically, rejoin with `", "`" — where the spec clarifies that
splitting is intentionally surface-level ("Must not attempt full CSS
selector parsing (no bracket/pseudo-class awareness)"), i.e. every
comma splits.  The whitespace-run collapse is written here as a
left-to-right state machine carrying a "previous character was
whitespace" flag, independently of the source's formulation. -/

/-- Spec reference: collapse whitespace runs to single spaces; the
`Bool` records whether the previously consumed character belonged to a
whitespace run (in which case further whitespace is absorbed). -/
def specCollapse : Bool → List Char → List Char
  | _, [] => []
  | prevWs, c :: rest =>
      if isWs c then
        if prevWs then specCollapse true rest
        else ' ' :: specCollapse true rest
      else c :: specCollapse false rest

/-- Reference normalizer following the spec's words: split on commas,
trim each segment then collapse its internal whitespace runs, sort the
segments lexicographically, rejoin with `", "`. -/
def specNormalize (selector : String) : String :=
  ⟨joinWith [',', ' ']
    (sortSegs ((splitOnComma selector.data).map (fun seg => specCollapse false (trimChars seg))))⟩

/-- The two whitespace-collapse formulations agree (generalized over a
leading character so that the induction goes through). -/
theorem collapseWs_cons_eq (l : List Char) :
    ∀ c : Char, collapseWs (c :: l) = specCollapse false (c :: l) := by
  induction l with
  | nil =>
      intro c
      by_cases h : isWs c = true <;> simp [collapseWs, specCollapse, h]
  | cons d r ih =>
      intro c
      by_cases hc : isWs c = true <;> by_cases hd : isWs d = true
      · have hrec : collapseWs (d :: r) = specCollapse false (d :: r) := ih d
        rw [show collapseWs (c :: d :: r) = collapseWs (d :: r) by
              simp [collapseWs, hc, hd]]
        rw [hrec]
        simp [specCollapse, hc, hd]
      · have hrec : collapseWs (d :: r) = specCollapse false (d :: r) := ih d
        rw [show collapseWs (c :: d :: r) = ' ' :: collapseWs (d :: r) by
              simp [collapseWs, hc, hd]]
        rw [hrec]
        simp [specCollapse, hc, hd]
      · have hrec : collapseWs (d :: r) = specCollapse false (d :: r) := ih d
        rw [show collapseWs (c :: d :: r) = c :: collapseWs (d :: r) by
              simp [collapseWs, hc, hd]]
        rw [hrec]
        simp [specCollapse, hc]
      · have hrec : collapseWs (d :: r) = specCollapse false (d :: r) := ih d
        rw [show collapseWs (c :: d :: r) = c :: collapseWs (d :: r) by
              simp [collapseWs, hc, hd]]
        rw [hrec]
        simp [specCollapse, hc]

/-- The source's collapse equals the spec's collapse on every input. -/
theorem collapseWs_eq_specCollapse (l : List Char) :
    collapseWs l = specCollapse false l := by
  cases l with
  | nil => rfl
  | cons c r => exact collapseWs_cons_eq r c

/-! ## Rule store (storage.ts, deterministic-id variant) -/

/-- Model of `Array.prototype.findIndex`: index of the first element
satisfying the predicate, if any. -/
def findIndex (p : α → Bool) : List α → Option Nat
  | [] => none
  | a :: as => if p a then some 0 else (findIndex p as).map (· + 1)

theorem findIndex_lt_length {p : α → Bool} {l : List α} {i : Nat}
    (h : findIndex p l = some i) : i < l.length := by
  induction l generalizing i with
  | nil => simp [findIndex] at h
  | cons a as ih =>
      by_cases hp : p a = true
      · rw [findIndex, if_pos hp] at h
        cases h
        simp
      · rw [findIndex, if_neg hp] at h
        cases hfa : findIndex p as with
        | none => rw [hfa] at h; simp at h
        | some j =>
            rw [hfa] at h
            simp only [Option.map_some', Option.some.injEq] at h
            have := ih hfa
            simp only [List.length_cons]
            omega

theorem findIndex_eq_none_iff {p : α → Bool} {l : List α} :
    findIndex p l = none ↔ ∀ a ∈ l, p a = false := by
  induction l with
  | nil => simp [findIndex]
  | cons a as ih =>
      by_cases hp : p a = true
      · simp [findIndex, hp]
      · have hp' : p a = false := by simpa using hp
        simp [findIndex, hp', ih]

theorem findIndex_get {p : α → Bool} {l : List α} {i : Nat}
    (h : findIndex p l = some i) :
    p (l.get ⟨i, findIndex_lt_length h⟩) = true := by
  induction l generalizing i with
  | nil => simp [findIndex] at h
  | cons a as ih =>
      by_cases hp : p a = true
      · have h0 : i = 0 := by
          rw [findIndex, if_pos hp] at h
          cases h
          rfl
        subst h0
        simpa using hp
      · cases hfa : findIndex p as with
        | none =>
            exfalso
            rw [findIndex, if_neg hp, hfa] at h
            simp at h
        | some j =>
            have hij : i = j + 1 := by
              rw [findIndex, if_neg hp, hfa] at h
              simpa using h.symm
            subst hij
            simpa using ih hfa

/-- Caller-supplied fields of a new rule
(`Omit<StyleRule, 'id' | 'createdAt' | 'updatedAt'>` minus `updatedBy`,
as passed by every call site). -/
structure RuleInput where
  selector : String
  css : String
  description : Option String
  createdBy : Provenance
deriving DecidableEq, Repr

/-- `saveSiteStyles(domain, styles)`: stores `{...styles, domain,
updatedAt: Date.now()}` under the domain key. -/
def saveSiteStyles (domain : String) (styles : SiteStyles) (now : Nat) : DomainState :=
  some (.modern { styles with domain := domain, updatedAt := now })

/-- `migrateLegacyStyles(legacy)`: wrap a non-blank legacy CSS string in
a single `(migrated)` rule; blank legacy CSS yields an empty rule list.
The guard models `if (legacy.css && legacy.css.trim())`. -/
def migrateLegacyStyles (legacy : LegacySiteStyles) : SiteStyles :=
  let rules : List StyleRule :=
    if legacy.css ≠ "" ∧ (⟨trimChars legacy.css.data⟩ : String) ≠ "" then
      [{ id := "(migrated)", selector := "(migrated)", css := legacy.css,
         description := some "Migrated from legacy format", createdBy := .user,
         updatedBy := none, createdAt := legacy.createdAt,
         updatedAt := legacy.updatedAt }]
    else []
  { domain := legacy.domain, rules := rules, enabled := legacy.enabled,
    createdAt := legacy.createdAt, updatedAt := legacy.updatedAt }

/-- `getSiteStyles(domain)`: returns the stored aggregate, transparently
migrating (and persisting back) a legacy record. Returns the value the
source returns together with the storage state after the call. -/
def getSiteStyles (st : DomainState) (domain : String) (now : Nat) :
    Option SiteStyles × DomainState :=
  match st with
  | none => (none, st)
  | some (.modern s) => (some s, st)
  | some (.legacy l) =>
      let migrated := migrateLegacyStyles l
      (some migrated, saveSiteStyles domain migrated now)

/-- `clearSiteStyles(domain)`: `delete allStyles[domain]`. -/
def clearSiteStyles (_st : DomainState) : DomainState := none

/-- `addRule(domain, rule)`: derive the id from the normalized selector;
if a rule with that id exists, update it in place, otherwise append a
fresh rule (creating the aggregate if absent, with `enabled: true`). -/
def addRule (st : DomainState) (domain : String) (rule : RuleInput) (now : Nat) :
    StyleRule × DomainState :=
  let read := getSiteStyles st domain now
  let ruleId := selectorToId rule.selector
  match read.1, read.2 with
  | some styles, _ =>
      match hfi : findIndex (fun r => r.id == ruleId) styles.rules with
      | some i =>
          let existingRule := styles.rules.get ⟨i, findIndex_lt_length hfi⟩
          let updatedRule : StyleRule :=
            { existingRule with
              css := rule.css, description := rule.description,
              updatedBy := some rule.createdBy, updatedAt := now }
          (updatedRule,
           saveSiteStyles domain { styles with rules := styles.rules.set i updatedRule } now)
      | none =>
          let newRule : StyleRule :=
            { id := ruleId, selector := rule.selector, css := rule.css,
              description := rule.description, createdBy := rule.createdBy,
              updatedBy := none, createdAt := now, updatedAt := now }
          (newRule,
           saveSiteStyles domain { styles with rules := styles.rules ++ [newRule] } now)
  | none, _ =>
      let newRule : StyleRule :=
        { id := ruleId, selector := rule.selector, css := rule.css,
          description := rule.description, createdBy := rule.createdBy,
          updatedBy := none, createdAt := now, updatedAt := now }
      (newRule,
       saveSiteStyles domain
         { domain := domain, rules := [newRule], enabled := true,
           createdAt := now, updatedAt := now } now)

/-- `editRule(domain, ruleId, updates)` as invoked by the tool layer:
`updates = { css, description, updatedBy }` where the spread overwrites
all three fields (`description` may be overwritten with `undefined`).
Returns the updated rule, or `null` when the aggregate or the id is
missing, never throwing. -/
def editRule (st : DomainState) (domain ruleId css : String)
    (description : Option String) (updatedBy : Provenance) (now : Nat) :
    Option StyleRule × DomainState :=
  let read := getSiteStyles st domain now
  match read.1 with
  | none => (none, read.2)
  | some styles =>
      match hfi : findIndex (fun r => r.id == ruleId) styles.rules with
      | none => (none, read.2)
      | some i =>
          let rule := styles.rules.get ⟨i, findIndex_lt_length hfi⟩
          let updatedRule : StyleRule :=
            { rule with
              css := css, description := description,
              updatedBy := some updatedBy, updatedAt := now }
          (some updatedRule,
           saveSiteStyles domain { styles with rules := styles.rules.set i updatedRule } now)

/-- `deleteRule(domain, ruleId)`: splice out the matching rule,
returning a success flag; a missing aggregate or id is a `false` no-op. -/
def deleteRule (st : DomainState) (domain ruleId : String) (now : Nat) :
    Bool × DomainState :=
  let read := getSiteStyles st domain now
  match read.1 with
  | none => (false, read.2)
  | some styles =>
      match findIndex (fun r => r.id == ruleId) styles.rules with
      | none => (false, read.2)
      | some i =>
          (true,
           saveSiteStyles domain { styles with rules := styles.rules.eraseIdx i } now)

/-- `getRules(domain, ruleIds)`: the subset of rules whose id is in the
filter list; missing ids are silently omitted. -/
def getRules (st : DomainState) (domain : String) (ruleIds : List String) (now : Nat) :
    List StyleRule × DomainState :=
  let read := getSiteStyles st domain now
  match read.1 with
  | none => ([], read.2)
  | some styles => (styles.rules.filter (fun r => ruleIds.contains r.id), read.2)

/-- `RuleSummary`: the projection returned by `getRuleSummaries`. -/
structure RuleSummary where
  id : String
  description : Option String
  createdBy : Provenance
  updatedBy : Option Provenance
deriving DecidableEq, Repr

/-- `getRuleSummaries(styles)`: project each rule down to its summary,
omitting the CSS body. -/
def getRuleSummaries (styles : SiteStyles) : List RuleSummary :=
  styles.rules.map (fun r =>
    { id := r.id, description := r.description,
      createdBy := r.createdBy, updatedBy := r.updatedBy })

/-- `compileRulesToCSS(styles)`: concatenate the rule bodies,
double-newline separated, in collection order. -/
def compileRulesToCSS (styles : SiteStyles) : String :=
  String.intercalate "\n\n" (styles.rules.map (fun r => r.css))

/-! ## Snapshot / undo manager (background script)

A JavaScript `Map` preserves insertion order; `set` on an existing key
keeps its original position, `set` on a fresh key appends.  One
domain's snapshot map is modelled as an ordered association list. -/

/-- One domain's snapshot map: `messageId -> rules`, insertion-ordered. -/
abbrev SnapshotMap := List (String × List StyleRule)

/-- `Map.prototype.has`. -/
def mapHas (m : List (String × α)) (k : String) : Bool :=
  m.any (fun e => e.1 == k)

/-- `Map.prototype.set`: overwrite in place if present, else append. -/
def mapSet (m : List (String × α)) (k : String) (v : α) : List (String × α) :=
  if mapHas m k then m.map (fun e => if e.1 == k then (k, v) else e)
  else m ++ [(k, v)]

/-- `Map.prototype.get` (`?? null` at call sites becomes `Option`). -/
def mapGet (m : List (String × α)) (k : String) : Option α :=
  (m.find? (fun e => e.1 == k)).map (fun e => e.2)

/-- `Map.prototype.delete` (order of the survivors is unchanged). -/
def mapDeleteKey (m : List (String × α)) (k : String) : List (String × α) :=
  m.filter (fun e => e.1 != k)

/-- `MAX_SNAPSHOTS_PER_DOMAIN` from the background script. -/
def MAX_SNAPSHOTS_PER_DOMAIN : Nat := 20

/-- `saveSnapshot(domain, messageId, rules)`: deep-copy the rules into
the map (value semantics: in this pure embedding the copy is the value
itself), then drop the oldest entries beyond the retention cap. -/
def saveSnapshot (m : SnapshotMap) (messageId : String) (rules : List StyleRule) :
    SnapshotMap :=
  let m' := mapSet m messageId rules
  if m'.length > MAX_SNAPSHOTS_PER_DOMAIN then
    m'.drop (m'.length - MAX_SNAPSHOTS_PER_DOMAIN)
  else m'

/-- `getSnapshot(domain, messageId)`. -/
def getSnapshot (m : SnapshotMap) (messageId : String) : Option (List StyleRule) :=
  mapGet m messageId

/-- `clearSnapshotsFrom(domain, messageIds)`: bulk delete. -/
def clearSnapshotsFrom (m : SnapshotMap) (messageIds : List String) : SnapshotMap :=
  messageIds.foldl (fun acc msgId => mapDeleteKey acc msgId) m

/-- The outcome of a background handler (`{success: true}` or
`{success: false, error}`). -/
inductive UndoResult where
  | ok
  | err (message : String)
deriving DecidableEq, Repr

/-- `handleUndoOperations(tabId, snapshotId, snapshotIdsToRemove)`:
restore the rules from the snapshot (clearing the whole aggregate when
the snapshot is empty), preserving the current `enabled` flag
(`?? true`) and `createdAt` (`|| Date.now()`, so a `0` or missing
`createdAt` is replaced by the clock), then prune the listed snapshot
ids.  A missing snapshot is an explicit error and leaves everything
untouched. -/
def handleUndoOperations (snapMap : SnapshotMap) (st : DomainState) (domain : String)
    (snapshotId : String) (snapshotIdsToRemove : List String) (now : Nat) :
    UndoResult × DomainState × SnapshotMap :=
  match getSnapshot snapMap snapshotId with
  | none => (.err "Snapshot not found - undo unavailable", st, snapMap)
  | some snapshot =>
      let read := getSiteStyles st domain now
      let currentStyles := read.1
      let st1 := read.2
      let enabled := match currentStyles with
        | some s => s.enabled
        | none => true
      let st2 :=
        if snapshot.length > 0 then
          saveSiteStyles domain
            { domain := domain, rules := snapshot, enabled := enabled,
              createdAt := (match currentStyles with
                | some s => if s.createdAt ≠ 0 then s.createdAt else now
                | none => now),
              updatedAt := now } now
        else clearSiteStyles st1
      (.ok, st2, clearSnapshotsFrom snapMap snapshotIdsToRemove)

/-! ## Sequences of rule-store mutations (for the id-uniqueness invariant) -/

/-- A storage-level mutation, as dispatched by the tool layer. -/
inductive StoreOp where
  | add (rule : RuleInput)
  | edit (ruleId css : String) (description : Option String) (updatedBy : Provenance)
  | del (ruleId : String)
deriving DecidableEq, Repr

/-- Apply one mutation to the domain's storage slot. -/
def applyOp (st : DomainState) (domain : String) (op : StoreOp) (now : Nat) : DomainState :=
  match op with
  | .add rule => (addRule st domain rule now).2
  | .edit ruleId css d ub => (editRule st domain ruleId css d ub now).2
  | .del ruleId => (deleteRule st domain ruleId now).2

/-- Apply a sequence of mutations, each with its own clock value. -/
def applyOps (st : DomainState) (domain : String) : List (StoreOp × Nat) → DomainState
  | [] => st
  | (op, now) :: rest => applyOps (applyOp st domain op now) domain rest

/-- The ids of the domain's (modern) rule collection. -/
def ruleIds (st : DomainState) : List String :=
  match st with
  | some (.modern s) => s.rules.map (fun r => r.id)
  | _ => []

/-- The id-uniqueness invariant of the rule collection. -/
def idsNodup (st : DomainState) : Prop := (ruleIds st).Nodup

/-! ## Operation log entries (`StyleOperation`) -/

/-- `StyleOperation`: the tagged union
`{op: add, selector, css, description?} | {op: edit, ruleId, css,
description?} | {op: delete, ruleId}` recorded in the operation log. -/
inductive StyleOperation where
  | add (selector css : String) (description : Option String)
  | edit (ruleId css : String) (description : Option String)
  | del (ruleId : String)
deriving DecidableEq, Repr

/-- Rendering of a provenance tag, as it appears in serialized tool results. -/
def provString : Provenance → String
  | .ai => "ai"
  | .user => "user"

/-- Rendering of an optional string field in a serialized tool result. -/
def optField : Option String → String
  | some s => "\"" ++ s ++ "\""
  | none => "undefined"

/-- Serialization of one rule summary.  The source uses
`JSON.stringify(..., null, 2)`; the exact pretty-printed text is
abstracted by this concrete renderer (no claim depends on it), while
the *decision structure* around it (empty-collection checks) is kept
exact in `executeTool`. -/
def renderSummary (s : RuleSummary) : String :=
  "\x7bid: \"" ++ s.id ++ "\", description: " ++ optField s.description ++
    ", createdBy: \"" ++ provString s.createdBy ++ "\", updatedBy: " ++
    (match s.updatedBy with
      | some p => "\"" ++ provString p ++ "\""
      | none => "undefined") ++ "\x7d"

/-- Serialization of a list of rule summaries (see `renderSummary`). -/
def renderSummaries (l : List RuleSummary) : String :=
  "[" ++ String.intercalate ", " (l.map renderSummary) ++ "]"

/-- Serialization of the full rule bodies returned by `read_rules`
(see `renderSummary` for the abstraction note). -/
def renderRuleData (l : List StyleRule) : String :=
  "[" ++ String.intercalate ", "
    (l.map (fun r =>
      "\x7bid: \"" ++ r.id ++ "\", selector: \"" ++ r.selector ++ "\", css: \"" ++
        r.css ++ "\", description: " ++ optField r.description ++ "\x7d")) ++ "]"

/-! ## Agent loop, Anthropic variant (`src/lib/ai.ts`) -/

namespace Anthropic

/-- A tool invocation issued by the model (one `tool_use` content
block).  `finish`'s explanation is `Option` because the argument is an
unchecked cast in the source and may be absent. -/
inductive ToolCall where
  | list_rules
  | read_rules (rule_ids : List String)
  | add_rule (selector css : String) (description : Option String)
  | edit_rule (rule_id css : String) (description : Option String)
  | delete_rule (rule_id : String)
  | finish (explanation : Option String)
deriving DecidableEq, Repr

/-- Whether a tool call is the terminal `finish` signal. -/
def ToolCall.isFinish : ToolCall → Bool
  | .finish _ => true
  | _ => false

/-- The `{result, finished?, explanation?}` record returned by `executeTool`. -/
structure ToolOutcome where
  result : String
  finished : Bool
  explanation : Option String
deriving DecidableEq, Repr

/-- `executeTool(toolName, toolInput, domain, operations)` from ai.ts:
dispatch one tool call against the rule store, returning the tool
result together with the storage state and the operation log after the
call (the source mutates `operations` in place). -/
def executeTool (st : DomainState) (domain : String) (ops : List StyleOperation)
    (tc : ToolCall) (now : Nat) : ToolOutcome × DomainState × List StyleOperation :=
  match tc with
  | .list_rules =>
      let read := getSiteStyles st domain now
      match read.1 with
      | none =>
          (⟨"No CSS rules currently saved for this site.", false, none⟩, read.2, ops)
      | some styles =>
          if styles.rules.length = 0 then
            (⟨"No CSS rules currently saved for this site.", false, none⟩, read.2, ops)
          else
            (⟨renderSummaries (getRuleSummaries styles), false, none⟩, read.2, ops)
  | .read_rules rule_ids =>
      let res := getRules st domain rule_ids now
      if res.1.length = 0 then
        (⟨"No rules found with the specified IDs.", false, none⟩, res.2, ops)
      else
        (⟨renderRuleData res.1, false, none⟩, res.2, ops)
  | .add_rule selector css description =>
      let res := addRule st domain ⟨selector, css, description, .ai⟩ now
      (⟨"Rule added successfully with ID: " ++ res.1.id, false, none⟩, res.2,
       ops ++ [.add selector css description])
  | .edit_rule rule_id css description =>
      let res := editRule st domain rule_id css description .ai now
      match res.1 with
      | none =>
          (⟨"Error: Rule with ID " ++ rule_id ++ " not found.", false, none⟩, res.2, ops)
      | some _ =>
          (⟨"Rule " ++ rule_id ++ " updated successfully.", false, none⟩, res.2,
           ops ++ [.edit rule_id css description])
  | .delete_rule rule_id =>
      let res := deleteRule st domain rule_id now
      if res.1 then
        (⟨"Rule " ++ rule_id ++ " deleted successfully.", false, none⟩, res.2,
         ops ++ [.del rule_id])
      else
        (⟨"Error: Rule with ID " ++ rule_id ++ " not found.", false, none⟩, res.2, ops)
  | .finish explanation =>
      (⟨"Completed.", true, explanation⟩, st, ops)

/-- One provider round-trip result, after response-shape decoding:
either a `tool_use`-stopped response carrying the tool invocations, or
a final response carrying the first text block's text (if any).  The
scripted provider is indexed by round-trip number; the conversation
content fed to the black-box provider does not influence the loop's
control flow and is not tracked. -/
inductive ModelResponse where
  | toolUse (calls : List ToolCall)
  | text (t : Option String)

/-- State after executing one batch of tool calls. -/
structure BatchResult where
  state : DomainState
  ops : List StyleOperation
  finished : Bool
  explanation : String
deriving DecidableEq, Repr

/-- The `for (const toolUse of toolUseBlocks)` loop: execute the calls
sequentially against the in-progress state; a `finish` whose
explanation is present and non-empty (`if (isFinished && explanation)`,
JavaScript truthiness) records the finish flag and the explanation. -/
def execBatch (domain : String) (now : Nat) :
    List ToolCall → DomainState → List StyleOperation → Bool → String → BatchResult
  | [], st, ops, fin, expl => ⟨st, ops, fin, expl⟩
  | tc :: rest, st, ops, fin, expl =>
      let r := executeTool st domain ops tc now
      let out := r.1
      match out.finished, out.explanation with
      | true, some e =>
          if e ≠ "" then execBatch domain now rest r.2.1 r.2.2 true e
          else execBatch domain now rest r.2.1 r.2.2 fin expl
      | _, _ => execBatch domain now rest r.2.1 r.2.2 fin expl

/-- `MAX_TOOL_ITERATIONS` from ai.ts. -/
def MAX_TOOL_ITERATIONS : Nat := 10

/-- The loop's observable result: the returned `{explanation,
operations}` plus, as ghost instrumentation, the final value of the
`iteration` counter (= number of provider round-trips made) and the
final storage state. -/
structure LoopResult where
  explanation : String
  operations : List StyleOperation
  iterations : Nat
  state : DomainState
deriving DecidableEq, Repr

/-- The `while (iteration < MAX_TOOL_ITERATIONS)` loop of
`generateStyles`, with `fuel = MAX_TOOL_ITERATIONS - iteration` making
the countdown structural.  `iter` is the current value of the
`iteration` counter; each pass increments it and consults the provider.
A batch that recorded a truthy finish breaks out; a non-`tool_use`
response breaks out taking a non-empty text block as the explanation. -/
def generateStylesGo (provider : Nat → ModelResponse) (domain : String) (now : Nat) :
    Nat → Nat → DomainState → List StyleOperation → String → LoopResult
  | 0, iter, st, ops, expl => ⟨expl, ops, iter, st⟩
  | fuel + 1, iter, st, ops, expl =>
      let k := iter + 1
      match provider k with
      | .toolUse calls =>
          let b := execBatch domain now calls st ops false expl
          if b.finished then ⟨b.explanation, b.ops, k, b.state⟩
          else generateStylesGo provider domain now fuel k b.state b.ops b.explanation
      | .text t =>
          match t with
          | some s => if s ≠ "" then ⟨s, ops, k, st⟩ else ⟨expl, ops, k, st⟩
          | none => ⟨expl, ops, k, st⟩

/-- `generateStyles`: run the tool-calling loop from iteration 0 with
an empty operation log and the default explanation `'Styles updated.'`. -/
def generateStyles (provider : Nat → ModelResponse) (domain : String) (now : Nat)
    (st : DomainState) : LoopResult :=
  generateStylesGo provider domain now MAX_TOOL_ITERATIONS 0 st [] "Styles updated."

end Anthropic

/-! ## Agent loop, Gemini variant (the `generateStyles` with 500-retry)

This variant addresses rules by raw selector (normalizing with
`selectorToId` before lookup) and retries a status-500 fetch up to
twice per run without consuming an iteration of the budget
(`iteration--; continue`).  The accumulated "thinking" side channel is
not modelled (it feeds no control flow and no claim). -/

namespace Gemini

/-- A `functionCall` part issued by the model. -/
inductive GToolCall where
  | list_rules
  | read_rules (selectors : List String)
  | add_rule (selector css : String) (description : Option String)
  | edit_rule (selector css : String) (description : Option String)
  | delete_rule (selector : String)
  | finish (explanation : Option String)
deriving DecidableEq, Repr

/-- Whether a call is the terminal `finish` signal. -/
def GToolCall.isFinish : GToolCall → Bool
  | .finish _ => true
  | _ => false

/-- `executeTool` from the Gemini variant: selector-addressed edit and
delete (ids derived via `selectorToId`), `add` logging the normalized
id as the operation's selector. -/
def executeTool (st : DomainState) (domain : String) (ops : List StyleOperation)
    (tc : GToolCall) (now : Nat) :
    Anthropic.ToolOutcome × DomainState × List StyleOperation :=
  match tc with
  | .list_rules =>
      let read := getSiteStyles st domain now
      match read.1 with
      | none =>
          (⟨"No CSS rules currently saved for this site.", false, none⟩, read.2, ops)
      | some styles =>
          if styles.rules.length = 0 then
            (⟨"No CSS rules currently saved for this site.", false, none⟩, read.2, ops)
          else
            (⟨renderSummaries (getRuleSummaries styles), false, none⟩, read.2, ops)
  | .read_rules selectors =>
      if selectors.length = 0 then
        (⟨"No selectors provided.", false, none⟩, st, ops)
      else
        let ruleIds := selectors.map selectorToId
        let res := getRules st domain ruleIds now
        if res.1.length = 0 then
          (⟨"No rules found with the specified selectors.", false, none⟩, res.2, ops)
        else
          (⟨renderRuleData res.1, false, none⟩, res.2, ops)
  | .add_rule selector css description =>
      let res := addRule st domain ⟨selector, css, description, .ai⟩ now
      (⟨"Rule added/updated for selector: " ++ res.1.id, false, none⟩, res.2,
       ops ++ [.add res.1.id css description])
  | .edit_rule selector css description =>
      let ruleId := selectorToId selector
      let res := editRule st domain ruleId css description .ai now
      match res.1 with
      | none =>
          (⟨"Error: No rule found for selector \"" ++ selector ++ "\".", false, none⟩,
           res.2, ops)
      | some _ =>
          (⟨"Rule \"" ++ ruleId ++ "\" updated successfully.", false, none⟩, res.2,
           ops ++ [.edit ruleId css description])
  | .delete_rule selector =>
      let ruleId := selectorToId selector
      let res := deleteRule st domain ruleId now
      if res.1 then
        (⟨"Rule \"" ++ ruleId ++ "\" deleted successfully.", false, none⟩, res.2,
         ops ++ [.del ruleId])
      else
        (⟨"Error: No rule found for selector \"" ++ selector ++ "\".", false, none⟩,
         res.2, ops)
  | .finish explanation =>
      (⟨"Completed.", true, explanation⟩, st, ops)

/-- The decoded outcome of one `fetch` to the provider: a non-ok HTTP
status, or an ok response whose first candidate carries the listed
function calls and (first truthy) text part.  The scripted provider is
indexed by fetch number, so retries consult the next scripted entry. -/
inductive GeminiFetch where
  | http (status : Nat)
  | success (calls : List GToolCall) (text : Option String)

/-- The `for (const part of functionCalls)` loop (same shape as the
Anthropic batch loop, with the Gemini tool dispatch). -/
def execBatch (domain : String) (now : Nat) :
    List GToolCall → DomainState → List StyleOperation → Bool → String →
    Anthropic.BatchResult
  | [], st, ops, fin, expl => ⟨st, ops, fin, expl⟩
  | tc :: rest, st, ops, fin, expl =>
      let r := executeTool st domain ops tc now
      let out := r.1
      match out.finished, out.explanation with
      | true, some e =>
          if e ≠ "" then execBatch domain now rest r.2.1 r.2.2 true e
          else execBatch domain now rest r.2.1 r.2.2 fin expl
      | _, _ => execBatch domain now rest r.2.1 r.2.2 fin expl

/-- `MAX_TOOL_ITERATIONS` of the Gemini variant. -/
def MAX_TOOL_ITERATIONS : Nat := 10

/-- Final outcome: the returned `{explanation, operations}` or a thrown
error's message. -/
inductive GOutcome where
  | ok (explanation : String) (operations : List StyleOperation)
  | err (message : String)
deriving DecidableEq, Repr

/-- Loop result with ghost instrumentation: number of fetches made and
the final `iteration` counter value (retried fetches leave it
unchanged, mirroring `iteration--; continue`). -/
structure GResult where
  outcome : GOutcome
  fetches : Nat
  iterations : Nat
  state : DomainState
deriving DecidableEq, Repr

/-- The `while (iteration < MAX_TOOL_ITERATIONS)` loop of the Gemini
`generateStyles`: on a non-ok response, 401/403 and 429 throw
immediately; a 500 with `retryCount < 2` backs off (the 1000 ms sleep
is not modelled), increments `retryCount`, decrements `iteration` and
continues; any other status throws `API request failed with status N`.
On an ok response, function calls are executed as a batch, otherwise
a truthy text part becomes the explanation and the loop breaks. -/
def generateStylesGo (provider : Nat → GeminiFetch) (domain : String) (now : Nat)
    (iter retry fetches : Nat) (st : DomainState) (ops : List StyleOperation)
    (expl : String) : GResult :=
  if _h : iter < MAX_TOOL_ITERATIONS then
    let k := fetches + 1
    match provider k with
    | .http status =>
        if status = 401 ∨ status = 403 then
          ⟨.err "Invalid API key. Please check your Google AI API key.", k, iter + 1, st⟩
        else if status = 429 then
          ⟨.err "Rate limit exceeded. Please try again later.", k, iter + 1, st⟩
        else if _h5 : status = 500 ∧ retry < 2 then
          generateStylesGo provider domain now iter (retry + 1) k st ops expl
        else
          ⟨.err ("API request failed with status " ++ toString status), k, iter + 1, st⟩
    | .success calls text =>
        if calls.length > 0 then
          let b := execBatch domain now calls st ops false expl
          if b.finished then ⟨.ok b.explanation b.ops, k, iter + 1, b.state⟩
          else generateStylesGo provider domain now (iter + 1) retry k b.state b.ops b.explanation
        else
          match text with
          | some s =>
              if s ≠ "" then ⟨.ok s ops, k, iter + 1, st⟩
              else ⟨.ok expl ops, k, iter + 1, st⟩
          | none => ⟨.ok expl ops, k, iter + 1, st⟩
  else ⟨.ok expl ops, fetches, iter, st⟩
termination_by 3 * (MAX_TOOL_ITERATIONS - iter) + (2 - retry)
decreasing_by
  · simp only [MAX_TOOL_ITERATIONS] at *
    omega
  · simp only [MAX_TOOL_ITERATIONS] at *
    omega

/-- The Gemini `generateStyles`: run from iteration 0, retry budget 2,
empty operation log, default explanation `'Styles updated.'`. -/
def generateStyles (provider : Nat → GeminiFetch) (domain : String) (now : Nat)
    (st : DomainState) : GResult :=
  generateStylesGo provider domain now 0 0 0 st [] "Styles updated."

end Gemini

/-- The rules persisted in the domain's slot (empty when no modern
aggregate is stored). -/
def storedRules (st : DomainState) : List StyleRule :=
  match st with
  | some (.modern s) => s.rules
  | _ => []

/-! # Claims -/

/-- C4: for every input string, `selectorToId` equals the reference
normalizer built from the spec's words (split on commas — the spec's
"top-level" splitting is explicitly surface-level, with no bracket or
pseudo-class awareness — trim each segment, collapse internal
whitespace runs to single spaces, sort lexicographically, rejoin with
`", "`); it is total by construction, and the empty string is a legal
input producing the degenerate id `""`. -/
theorem selectorToId_eq_specNormalize :
    (∀ s : String, selectorToId s = specNormalize s) ∧ selectorToId "" = "" := by
  constructor
  · intro s
    unfold selectorToId specNormalize
    have h : (fun seg => collapseWs (trimChars seg)) =
        (fun seg => specCollapse false (trimChars seg)) :=
      funext fun seg => collapseWs_eq_specCollapse (trimChars seg)
    rw [h]
  · rfl

/-- C5 counterexample: reading a stored legacy record twice does *not*
return a structurally identical `SiteStyles` both times.  The first
read returns the freshly built migrated value (aggregate `updatedAt`
still the legacy record's `updatedAt`, here 5), but the write-back
persists it re-stamped with the current clock (here 100), so the
second read returns an aggregate whose `updatedAt` differs. -/
theorem getSiteStyles_legacy_double_read_differs :
    (getSiteStyles (some (.legacy ⟨"ex.com", "body{}", true, 5, 5⟩)) "ex.com" 100).1 ≠
      (getSiteStyles
        (getSiteStyles (some (.legacy ⟨"ex.com", "body{}", true, 5, 5⟩)) "ex.com" 100).2
        "ex.com" 200).1 := by
  decide

/-- C5 (amended): reading a stored legacy record migrates it and
persists the migrated form back immediately; a second read returns the
persisted migrated aggregate, which agrees with the first read's value
on `rules`, `enabled` and `createdAt` (hence on the entire migrated
rule, carrying the legacy CSS), and differs only in that its `domain`
is the storage key and its `updatedAt` is the first read's write-back
clock.  The second read performs no further write. -/
theorem getSiteStyles_legacy_migration_writeback
    (l : LegacySiteStyles) (domain : String) (now1 now2 : Nat) :
    (getSiteStyles (some (.legacy l)) domain now1).1 = some (migrateLegacyStyles l) ∧
    (getSiteStyles (some (.legacy l)) domain now1).2 =
      some (.modern { migrateLegacyStyles l with domain := domain, updatedAt := now1 }) ∧
    (getSiteStyles (getSiteStyles (some (.legacy l)) domain now1).2 domain now2).1 =
      some { migrateLegacyStyles l with domain := domain, updatedAt := now1 } ∧
    (getSiteStyles (getSiteStyles (some (.legacy l)) domain now1).2 domain now2).2 =
      (getSiteStyles (some (.legacy l)) domain now1).2 ∧
    ({ migrateLegacyStyles l with domain := domain, updatedAt := now1 } : SiteStyles).rules =
      (migrateLegacyStyles l).rules ∧
    ({ migrateLegacyStyles l with domain := domain, updatedAt := now1 } : SiteStyles).enabled =
      (migrateLegacyStyles l).enabled ∧
    ({ migrateLegacyStyles l with domain := domain, updatedAt := now1 } : SiteStyles).createdAt =
      (migrateLegacyStyles l).createdAt :=
  ⟨rfl, rfl, rfl, rfl, rfl, rfl, rfl⟩

/-! ### Association-list lemmas for the snapshot map -/

theorem mapHas_eq_false_iff {m : List (String × α)} {k : String} :
    mapHas m k = false ↔ ∀ e ∈ m, e.1 ≠ k := by
  simp [mapHas, List.any_eq_false]

theorem mapGet_eq_none {m : List (String × α)} {k : String}
    (h : ∀ e ∈ m, e.1 ≠ k) : mapGet m k = none := by
  induction m with
  | nil => rfl
  | cons e rest ih =>
      have h1 : (e.1 == k) = false := by
        simpa using h e (by simp)
      simp only [mapGet, List.find?, h1]
      exact ih (fun x hx => h x (by simp [hx]))

theorem mapGet_append_of_not_left {m1 m2 : List (String × α)} {k : String}
    (h : ∀ e ∈ m1, e.1 ≠ k) : mapGet (m1 ++ m2) k = mapGet m2 k := by
  induction m1 with
  | nil => simp
  | cons e rest ih =>
      have h1 : (e.1 == k) = false := by
        simpa using h e (by simp)
      simp only [List.cons_append, mapGet, List.find?, h1]
      exact ih (fun x hx => h x (by simp [hx]))

theorem mapGet_mem {m : List (String × α)} (hnd : (m.map Prod.fst).Nodup)
    {kv : String × α} (hm : kv ∈ m) : mapGet m kv.1 = some kv.2 := by
  induction m with
  | nil => cases hm
  | cons e rest ih =>
      rcases List.mem_cons.mp hm with heq | hmem
      · subst heq
        simp [mapGet, List.find?]
      · have hkey : e.1 ≠ kv.1 := by
          intro hcontra
          have : kv.1 ∈ rest.map Prod.fst := List.mem_map_of_mem Prod.fst hmem
          rw [List.map_cons] at hnd
          exact (List.nodup_cons.mp hnd).1 (hcontra ▸ this)
        have h1 : (e.1 == kv.1) = false := by simpa using hkey
        simp only [mapGet, List.find?, h1]
        exact ih (by rw [List.map_cons] at hnd; exact (List.nodup_cons.mp hnd).2) hmem

theorem find?_map_replace {m : List (String × α)} {k : String} {v : α}
    (h : mapHas m k = true) :
    (m.map (fun e => if e.1 == k then (k, v) else e)).find? (fun e => e.1 == k) =
      some (k, v) := by
  induction m with
  | nil => simp [mapHas] at h
  | cons e rest ih =>
      by_cases he : (e.1 == k) = true
      · rw [List.map_cons, if_pos he, List.find?_cons_of_pos _ (by simp)]
      · rw [List.map_cons, if_neg he,
          List.find?_cons_of_neg _ (by simpa using he)]
        exact ih (by simpa [mapHas, he] using h)

theorem mapGet_mapSet_self {m : List (String × α)} {k : String} {v : α} :
    mapGet (mapSet m k v) k = some v := by
  by_cases h : mapHas m k = true
  · simp only [mapSet, if_pos h, mapGet, find?_map_replace h, Option.map_some']
  · have hb : mapHas m k = false := by simpa using h
    have hfresh : ∀ e ∈ m, e.1 ≠ k := mapHas_eq_false_iff.mp hb
    simp only [mapSet, hb, Bool.false_eq_true, if_false]
    rw [mapGet_append_of_not_left hfresh]
    simp [mapGet]

theorem mapSet_length_of_has {m : List (String × α)} {k : String} {v : α}
    (h : mapHas m k = true) : (mapSet m k v).length = m.length := by
  simp [mapSet, h]

theorem mapSet_of_fresh {m : List (String × α)} {k : String} {v : α}
    (h : mapHas m k = false) : mapSet m k v = m ++ [(k, v)] := by
  simp [mapSet, h]

/-- Retention bound: `saveSnapshot` never leaves more than the cap. -/
theorem saveSnapshot_length_le (m : SnapshotMap) (k : String) (v : List StyleRule) :
    (saveSnapshot m k v).length ≤ MAX_SNAPSHOTS_PER_DOMAIN := by
  simp only [saveSnapshot]
  split
  · rw [List.length_drop]
    omega
  · omega

/-- A snapshot just saved into a within-cap map is retrievable. -/
theorem getSnapshot_saveSnapshot_self {m : SnapshotMap} {k : String}
    {v : List StyleRule} (hlen : m.length ≤ MAX_SNAPSHOTS_PER_DOMAIN) :
    getSnapshot (saveSnapshot m k v) k = some v := by
  simp only [saveSnapshot, getSnapshot]
  by_cases h : mapHas m k = true
  · rw [if_neg (by rw [mapSet_length_of_has h]; omega)]
    exact mapGet_mapSet_self
  · have hb : mapHas m k = false := by simpa using h
    have hfresh : ∀ e ∈ m, e.1 ≠ k := mapHas_eq_false_iff.mp hb
    rw [mapSet_of_fresh hb]
    by_cases hl : (m ++ [(k, v)]).length > MAX_SNAPSHOTS_PER_DOMAIN
    · rw [if_pos hl]
      have hM : MAX_SNAPSHOTS_PER_DOMAIN = 20 := rfl
      have hlen1 : (m ++ [(k, v)]).length = m.length + 1 := by simp
      have hdrop : (m ++ [(k, v)]).length - MAX_SNAPSHOTS_PER_DOMAIN = 1 := by omega
      rw [hdrop, List.drop_append_of_le_length (by omega)]
      rw [mapGet_append_of_not_left (fun e he => hfresh e (List.mem_of_mem_drop he))]
      simp [mapGet]
    · rw [if_neg hl]
      rw [mapGet_append_of_not_left hfresh]
      simp [mapGet]

/-- Saving snapshots under fresh, pairwise-distinct ids into a map that
stays within the cap appends them in order. -/
theorem foldl_saveSnapshot_fresh (entries : List (String × List StyleRule)) :
    ∀ m : SnapshotMap, ((m ++ entries).map Prod.fst).Nodup →
    m.length + entries.length ≤ MAX_SNAPSHOTS_PER_DOMAIN →
    entries.foldl (fun acc e => saveSnapshot acc e.1 e.2) m = m ++ entries := by
  induction entries with
  | nil => intro m _ _; simp
  | cons e rest ih =>
      intro m hnd hlen
      have hkey : e.1 ∉ m.map Prod.fst := by
        have hdisj := (List.nodup_append.mp (by simpa using hnd)).2.2
        intro hcontra
        exact hdisj hcontra (by simp)
      have hfresh : mapHas m e.1 = false := by
        rw [mapHas_eq_false_iff]
        intro x hx hcontra
        exact hkey (hcontra ▸ List.mem_map_of_mem Prod.fst hx)
      have hsave : saveSnapshot m e.1 e.2 = m ++ [e] := by
        simp only [saveSnapshot]
        rw [mapSet_of_fresh hfresh, if_neg]
        simp only [List.length_append, List.length_cons, List.length_nil,
          List.length_cons] at hlen ⊢
        omega
      simp only [List.foldl_cons, hsave]
      rw [ih (m ++ [e])
        (by rw [List.append_assoc]; simpa using hnd)
        (by simp only [List.length_append, List.length_cons, List.length_nil] at hlen ⊢
            omega)]
      simp

/-- C6: the snapshot store retains at most 20 snapshots per domain
(unconditionally: `saveSnapshot` never leaves more), and eviction is
oldest-first: saving 21 snapshots under pairwise-distinct ids into an
empty store evicts exactly the first-saved one — its `getSnapshot`
returns not-found — while every other id still restores its stored
copy. -/
theorem saveSnapshot_eviction
    (k0 k21 : String) (v0 v21 : List StyleRule) (rest : List (String × List StyleRule))
    (hnd : (((((k0, v0) :: rest) ++ [(k21, v21)])).map Prod.fst).Nodup)
    (hlen : rest.length = 19) :
    (getSnapshot ((((k0, v0) :: rest) ++ [(k21, v21)]).foldl
        (fun acc e => saveSnapshot acc e.1 e.2) ([] : SnapshotMap)) k0 = none) ∧
    (∀ kv ∈ rest, getSnapshot ((((k0, v0) :: rest) ++ [(k21, v21)]).foldl
        (fun acc e => saveSnapshot acc e.1 e.2) ([] : SnapshotMap)) kv.1 = some kv.2) ∧
    (getSnapshot ((((k0, v0) :: rest) ++ [(k21, v21)]).foldl
        (fun acc e => saveSnapshot acc e.1 e.2) ([] : SnapshotMap)) k21 = some v21) ∧
    ((((k0, v0) :: rest) ++ [(k21, v21)]).foldl
        (fun acc e => saveSnapshot acc e.1 e.2) ([] : SnapshotMap)).length =
      MAX_SNAPSHOTS_PER_DOMAIN ∧
    (∀ (m : SnapshotMap) (msgId : String) (rules : List StyleRule),
      (saveSnapshot m msgId rules).length ≤ MAX_SNAPSHOTS_PER_DOMAIN) := by
  have hnd20 : ((((k0, v0) :: rest)).map Prod.fst).Nodup := by
    rw [List.map_append] at hnd
    exact hnd.of_append_left
  have h20 : (((k0, v0) :: rest)).foldl
      (fun acc e => saveSnapshot acc e.1 e.2) ([] : SnapshotMap) = (k0, v0) :: rest := by
    have hfold := foldl_saveSnapshot_fresh ((k0, v0) :: rest) []
      (by simpa using hnd20)
      (by simp [hlen, MAX_SNAPSHOTS_PER_DOMAIN])
    simpa using hfold
  have hk21_left : k21 ∉ (((k0, v0) :: rest)).map Prod.fst := by
    rw [List.map_append] at hnd
    have hdisj := (List.nodup_append.mp hnd).2.2
    intro hcontra
    exact hdisj hcontra (by simp)
  have hfresh : mapHas ((k0, v0) :: rest) k21 = false := by
    rw [mapHas_eq_false_iff]
    intro x hx hcontra
    exact hk21_left (hcontra ▸ List.mem_map_of_mem Prod.fst hx)
  have hfinal : ((((k0, v0) :: rest) ++ [(k21, v21)])).foldl
      (fun acc e => saveSnapshot acc e.1 e.2) ([] : SnapshotMap) =
      rest ++ [(k21, v21)] := by
    rw [List.foldl_append, h20]
    simp only [List.foldl_cons, List.foldl_nil]
    simp only [saveSnapshot]
    rw [mapSet_of_fresh hfresh, if_pos
      (by simp only [List.length_append, List.length_cons, List.length_nil, hlen,
            MAX_SNAPSHOTS_PER_DOMAIN]
          omega)]
    have hd1 : (((k0, v0) :: rest) ++ [(k21, v21)]).length - MAX_SNAPSHOTS_PER_DOMAIN = 1 := by
      simp only [List.length_append, List.length_cons, List.length_nil, hlen,
        MAX_SNAPSHOTS_PER_DOMAIN]
    rw [hd1]
    rfl
  have hnd_cons : (k0 :: (rest.map Prod.fst ++ [k21])).Nodup := by
    simpa using hnd
  have hk0_rest : ∀ e ∈ rest ++ [(k21, v21)], e.1 ≠ k0 := by
    intro e he hcontra
    have hk0_notin := (List.nodup_cons.mp hnd_cons).1
    have hmem : e.1 ∈ rest.map Prod.fst ++ [k21] := by
      rcases List.mem_append.mp he with h1 | h1
      · exact List.mem_append.mpr (Or.inl (List.mem_map_of_mem Prod.fst h1))
      · simp only [List.mem_singleton] at h1
        simp [h1]
    exact hk0_notin (hcontra ▸ hmem)
  have hnd_tail : ((rest ++ [(k21, v21)]).map Prod.fst).Nodup := by
    rw [List.map_append]
    simpa using (List.nodup_cons.mp hnd_cons).2
  refine ⟨?_, ?_, ?_, ?_, ?_⟩
  · rw [hfinal]
    exact mapGet_eq_none hk0_rest
  · intro kv hkv
    rw [hfinal]
    exact mapGet_mem hnd_tail (List.mem_append.mpr (Or.inl hkv))
  · rw [hfinal]
    have hk21_rest : ∀ e ∈ rest, e.1 ≠ k21 := by
      intro e he hcontra
      exact hk21_left (hcontra ▸ List.mem_map_of_mem Prod.fst (by simp [he]))
    show mapGet (rest ++ [(k21, v21)]) k21 = some v21
    rw [mapGet_append_of_not_left hk21_rest]
    simp [mapGet]
  · rw [hfinal]
    simp [hlen, MAX_SNAPSHOTS_PER_DOMAIN]
  · intro m msgId rules
    exact saveSnapshot_length_le m msgId rules

/-- C6 witness: a concrete 21-snapshot run (ids `s1`, `t1` .. `t19`, `s21`). -/
theorem saveSnapshot_eviction_witness :
    (getSnapshot (((("s1", ([] : List StyleRule)) ::
        [("t1", []), ("t2", []), ("t3", []), ("t4", []), ("t5", []), ("t6", []),
       ("t7", []), ("t8", []), ("t9", []), ("t10", []), ("t11", []), ("t12", []),
       ("t13", []), ("t14", []), ("t15", []), ("t16", []), ("t17", []), ("t18", []),
       ("t19", [])]) ++ [("s21", [])]).foldl
        (fun acc (e : String × List StyleRule) => saveSnapshot acc e.1 e.2) ([] : SnapshotMap)) "s1" = none) ∧
    (∀ kv ∈ ([("t1", []), ("t2", []), ("t3", []), ("t4", []), ("t5", []), ("t6", []),
       ("t7", []), ("t8", []), ("t9", []), ("t10", []), ("t11", []), ("t12", []),
       ("t13", []), ("t14", []), ("t15", []), ("t16", []), ("t17", []), ("t18", []),
       ("t19", [])] : List (String × List StyleRule)),
      getSnapshot (((("s1", ([] : List StyleRule)) ::
        [("t1", []), ("t2", []), ("t3", []), ("t4", []), ("t5", []), ("t6", []),
       ("t7", []), ("t8", []), ("t9", []), ("t10", []), ("t11", []), ("t12", []),
       ("t13", []), ("t14", []), ("t15", []), ("t16", []), ("t17", []), ("t18", []),
       ("t19", [])]) ++ [("s21", [])]).foldl
        (fun acc (e : String × List StyleRule) => saveSnapshot acc e.1 e.2) ([] : SnapshotMap)) kv.1 = some kv.2) ∧
    (getSnapshot (((("s1", ([] : List StyleRule)) ::
        [("t1", []), ("t2", []), ("t3", []), ("t4", []), ("t5", []), ("t6", []),
       ("t7", []), ("t8", []), ("t9", []), ("t10", []), ("t11", []), ("t12", []),
       ("t13", []), ("t14", []), ("t15", []), ("t16", []), ("t17", []), ("t18", []),
       ("t19", [])]) ++ [("s21", [])]).foldl
        (fun acc (e : String × List StyleRule) => saveSnapshot acc e.1 e.2) ([] : SnapshotMap)) "s21" = some []) ∧
    (((("s1", ([] : List StyleRule)) ::
        [("t1", []), ("t2", []), ("t3", []), ("t4", []), ("t5", []), ("t6", []),
       ("t7", []), ("t8", []), ("t9", []), ("t10", []), ("t11", []), ("t12", []),
       ("t13", []), ("t14", []), ("t15", []), ("t16", []), ("t17", []), ("t18", []),
       ("t19", [])]) ++ [("s21", [])]).foldl
        (fun acc (e : String × List StyleRule) => saveSnapshot acc e.1 e.2) ([] : SnapshotMap)).length =
      MAX_SNAPSHOTS_PER_DOMAIN ∧
    (∀ (m : SnapshotMap) (msgId : String) (rules : List StyleRule),
      (saveSnapshot m msgId rules).length ≤ MAX_SNAPSHOTS_PER_DOMAIN) :=
  saveSnapshot_eviction "s1" "s21" [] [] [("t1", []), ("t2", []), ("t3", []), ("t4", []), ("t5", []), ("t6", []),
       ("t7", []), ("t8", []), ("t9", []), ("t10", []), ("t11", []), ("t12", []),
       ("t13", []), ("t14", []), ("t15", []), ("t16", []), ("t17", []), ("t18", []),
       ("t19", [])] (by decide) (by decide)

/-- C7: undo via a snapshot id restores exactly the snapshotted rule
collection.  The snapshot map is a value-semantic store, so whatever
mutations the intervening agent turn performed on the live storage
state `st` — the theorem quantifies over an arbitrary post-turn state —
the persisted rule collection after `handleUndoOperations` is
structurally equal to the snapshotted `R0` (an empty `R0` clears the
aggregate, leaving an empty collection). -/
theorem undo_restores_presnapshot_rules
    (snapMap : SnapshotMap) (R0 : List StyleRule) (msgId : String) (domain : String)
    (st : DomainState) (toRemove : List String) (now : Nat)
    (hlen : snapMap.length ≤ MAX_SNAPSHOTS_PER_DOMAIN) :
    (handleUndoOperations (saveSnapshot snapMap msgId R0) st domain msgId toRemove now).1 =
      .ok ∧
    storedRules
      (handleUndoOperations (saveSnapshot snapMap msgId R0) st domain msgId
        toRemove now).2.1 = R0 := by
  have hget : getSnapshot (saveSnapshot snapMap msgId R0) msgId = some R0 :=
    getSnapshot_saveSnapshot_self hlen
  simp only [handleUndoOperations, hget]
  by_cases hR : R0.length > 0
  · rw [if_pos hR]
    exact ⟨by trivial, by trivial⟩
  · rw [if_neg hR]
    have hnil : R0 = [] := List.eq_nil_of_length_eq_zero (by omega)
    subst hnil
    exact ⟨by trivial, by trivial⟩

/-- C7 witness: snapshot one rule, mutate the live state to something
else, undo, and recover the snapshotted collection. -/
theorem undo_restores_presnapshot_rules_witness :
    (handleUndoOperations
      (saveSnapshot [] "m1" [⟨"header", "header", "header{color:red}", none, .ai, none, 1, 1⟩])
      (some (.modern ⟨"d", [⟨".x", ".x", ".x{}", none, .ai, none, 2, 2⟩], true, 1, 2⟩))
      "d" "m1" [] 50).1 = .ok ∧
    storedRules
      (handleUndoOperations
        (saveSnapshot [] "m1" [⟨"header", "header", "header{color:red}", none, .ai, none, 1, 1⟩])
        (some (.modern ⟨"d", [⟨".x", ".x", ".x{}", none, .ai, none, 2, 2⟩], true, 1, 2⟩))
        "d" "m1" [] 50).2.1 =
      [⟨"header", "header", "header{color:red}", none, .ai, none, 1, 1⟩] :=
  undo_restores_presnapshot_rules []
    [⟨"header", "header", "header{color:red}", none, .ai, none, 1, 1⟩] "m1" "d"
    (some (.modern ⟨"d", [⟨".x", ".x", ".x{}", none, .ai, none, 2, 2⟩], true, 1, 2⟩))
    [] 50 (by decide)

/-- C10: restoring an empty snapshot deletes the whole aggregate: the
undo succeeds, the storage slot becomes empty, a subsequent
`getSiteStyles` returns `null` (the previous `enabled` flag and
`createdAt` are discarded with the aggregate), and a later `addRule`
re-creates the aggregate from scratch with `enabled := true` and fresh
timestamps. -/
theorem undo_empty_snapshot_clears
    (snapMap : SnapshotMap) (st : DomainState) (domain msgId : String)
    (toRemove : List String) (now now2 : Nat) (rule : RuleInput)
    (h : getSnapshot snapMap msgId = some ([] : List StyleRule)) :
    (handleUndoOperations snapMap st domain msgId toRemove now).1 = .ok ∧
    (handleUndoOperations snapMap st domain msgId toRemove now).2.1 = none ∧
    (getSiteStyles (handleUndoOperations snapMap st domain msgId toRemove now).2.1
      domain now2).1 = none ∧
    (addRule (handleUndoOperations snapMap st domain msgId toRemove now).2.1
      domain rule now2).2 =
      some (.modern
        { domain := domain,
          rules := [{ id := selectorToId rule.selector, selector := rule.selector,
                      css := rule.css, description := rule.description,
                      createdBy := rule.createdBy, updatedBy := none,
                      createdAt := now2, updatedAt := now2 }],
          enabled := true, createdAt := now2, updatedAt := now2 }) := by
  simp only [handleUndoOperations, h, List.length_nil, gt_iff_lt, Nat.lt_irrefl,
    if_false, clearSiteStyles]
  refine ⟨?_, ?_, ?_, ?_⟩ <;> trivial

/-- C10 witness: concrete empty-snapshot undo over a live aggregate. -/
theorem undo_empty_snapshot_clears_witness :
    (handleUndoOperations [("m1", [])]
      (some (.modern ⟨"d", [⟨".x", ".x", ".x{}", none, .ai, none, 2, 2⟩], false, 0, 2⟩))
      "d" "m1" [] 50).1 = .ok ∧
    (handleUndoOperations [("m1", [])]
      (some (.modern ⟨"d", [⟨".x", ".x", ".x{}", none, .ai, none, 2, 2⟩], false, 0, 2⟩))
      "d" "m1" [] 50).2.1 = none ∧
    (getSiteStyles (handleUndoOperations [("m1", [])]
      (some (.modern ⟨"d", [⟨".x", ".x", ".x{}", none, .ai, none, 2, 2⟩], false, 0, 2⟩))
      "d" "m1" [] 50).2.1 "d" 60).1 = none ∧
    (addRule (handleUndoOperations [("m1", [])]
      (some (.modern ⟨"d", [⟨".x", ".x", ".x{}", none, .ai, none, 2, 2⟩], false, 0, 2⟩))
      "d" "m1" [] 50).2.1 "d" ⟨"header", "header{}", none, .user⟩ 60).2 =
      some (.modern
        { domain := "d",
          rules := [{ id := selectorToId "header", selector := "header",
                      css := "header{}", description := none,
                      createdBy := .user, updatedBy := none,
                      createdAt := 60, updatedAt := 60 }],
          enabled := true, createdAt := 60, updatedAt := 60 }) :=
  undo_empty_snapshot_clears [("m1", [])]
    (some (.modern ⟨"d", [⟨".x", ".x", ".x{}", none, .ai, none, 2, 2⟩], false, 0, 2⟩))
    "d" "m1" [] 50 60 ⟨"header", "header{}", none, .user⟩ (by decide)

/-! ### Agent-loop lemmas (Anthropic variant) -/

namespace Anthropic

/-- A non-`finish` tool call never reports `finished`. -/
theorem executeTool_not_finished (st : DomainState) (domain : String)
    (ops : List StyleOperation) (tc : ToolCall) (now : Nat)
    (h : tc.isFinish = false) :
    (executeTool st domain ops tc now).1.finished = false := by
  cases tc with
  | list_rules =>
      simp only [executeTool]
      split
      · rfl
      · split <;> rfl
  | read_rules rule_ids =>
      simp only [executeTool]
      split <;> rfl
  | add_rule selector css description => rfl
  | edit_rule rule_id css description =>
      simp only [executeTool]
      split <;> rfl
  | delete_rule rule_id =>
      simp only [executeTool]
      split <;> rfl
  | finish explanation => simp [ToolCall.isFinish] at h

/-- A batch of non-`finish` tool calls leaves the finish flag and the
explanation untouched. -/
theorem execBatch_no_finish (domain : String) (now : Nat) (calls : List ToolCall)
    (h : ∀ c ∈ calls, c.isFinish = false) :
    ∀ st ops expl, (execBatch domain now calls st ops false expl).finished = false ∧
      (execBatch domain now calls st ops false expl).explanation = expl := by
  induction calls with
  | nil => intro st ops expl; exact ⟨rfl, rfl⟩
  | cons c rest ih =>
      intro st ops expl
      have hc := h c (List.mem_cons_self c rest)
      have hout : (executeTool st domain ops c now).1.finished = false :=
        executeTool_not_finished st domain ops c now hc
      simp only [execBatch, hout]
      exact ih (fun x hx => h x (List.mem_cons_of_mem c hx)) _ _ _

/-- With `fuel` round-trips remaining and every scripted response a
batch of non-`finish` tool calls, the loop consumes all the fuel and
keeps the running explanation. -/
theorem generateStylesGo_toolUse_cap (provider : Nat → ModelResponse)
    (domain : String) (now : Nat) (fuel : Nat) :
    ∀ (iter : Nat) (st : DomainState) (ops : List StyleOperation) (expl : String),
    (∀ k, iter < k → k ≤ iter + fuel →
      ∃ calls, provider k = .toolUse calls ∧ ∀ c ∈ calls, c.isFinish = false) →
    (generateStylesGo provider domain now fuel iter st ops expl).iterations = iter + fuel ∧
    (generateStylesGo provider domain now fuel iter st ops expl).explanation = expl := by
  induction fuel with
  | zero => intro iter st ops expl _; exact ⟨by simp [generateStylesGo], rfl⟩
  | succ n ih =>
      intro iter st ops expl hp
      obtain ⟨calls, hcalls, hnf⟩ := hp (iter + 1) (by omega) (by omega)
      have hb := execBatch_no_finish domain now calls hnf st ops expl
      simp only [generateStylesGo, hcalls, hb.1, Bool.false_eq_true, if_false, hb.2]
      have hrec := ih (iter + 1)
        (execBatch domain now calls st ops false expl).state
        (execBatch domain now calls st ops false expl).ops expl
        (fun k h1 h2 => hp k (by omega) (by omega))
      refine ⟨?_, hrec.2⟩
      rw [hrec.1]
      omega

end Anthropic

/-- C2: a scripted provider that on every round-trip returns only
non-`finish` tool calls (never plain text) makes `generateStyles`
terminate after exactly `MAX_TOOL_ITERATIONS = 10` round-trips with the
default generic explanation `'Styles updated.'`. -/
theorem generateStyles_iteration_cap
    (provider : Nat → Anthropic.ModelResponse) (domain : String) (now : Nat)
    (st : DomainState)
    (hp : ∀ k, 1 ≤ k → k ≤ 10 →
      ∃ calls, provider k = .toolUse calls ∧ ∀ c ∈ calls, c.isFinish = false) :
    (Anthropic.generateStyles provider domain now st).iterations = 10 ∧
    (Anthropic.generateStyles provider domain now st).explanation = "Styles updated." := by
  have hcap := Anthropic.generateStylesGo_toolUse_cap provider domain now 10 0 st []
    "Styles updated." (fun k h1 h2 => hp k (by omega) (by omega))
  simpa [Anthropic.generateStyles, Anthropic.MAX_TOOL_ITERATIONS] using hcap

/-- C2 witness: the scripted provider that always answers with a
`list_rules` tool call. -/
theorem generateStyles_iteration_cap_witness :
    (Anthropic.generateStyles (fun _ => .toolUse [.list_rules]) "ex.com" 7 none).iterations
      = 10 ∧
    (Anthropic.generateStyles (fun _ => .toolUse [.list_rules]) "ex.com" 7 none).explanation
      = "Styles updated." :=
  generateStyles_iteration_cap (fun _ => .toolUse [.list_rules]) "ex.com" 7 none
    (fun k _ _ => ⟨[.list_rules], rfl, by decide⟩)

/-- C3 counterexample: a batch containing a `finish` whose explanation
is the empty string does *not* short-circuit the loop.  The guard
`if (isFinished && explanation)` uses JavaScript truthiness, so
`finish("")` is ignored: with round 1 scripted as
`[add_rule, finish("")]` and round 2 as plain text `"t"`, the loop
performs a second round-trip and returns the text explanation, not the
finish explanation, contradicting the claim that any batch containing
a finish ends the loop after that round-trip with the finish
explanation. -/
theorem finish_empty_explanation_no_shortcircuit :
    (Anthropic.generateStyles
      (fun k => if k = 1
        then .toolUse [.add_rule "h" "h{}" none, .finish (some "")]
        else .text (some "t")) "ex.com" 7 none).iterations = 2 ∧
    (Anthropic.generateStyles
      (fun k => if k = 1
        then .toolUse [.add_rule "h" "h{}" none, .finish (some "")]
        else .text (some "t")) "ex.com" 7 none).explanation = "t" := by
  exact ⟨by decide, by decide⟩

/-- C3 (amended): if a provider batch contains a `finish` carrying a
*non-empty* explanation, every tool call in the batch is executed
(including one issued after or alongside the finish) and the loop exits
after that single round-trip with the finish explanation; in
particular `[add_rule, finish(e)]` — and likewise
`[finish(e), add_rule]` — produces exactly one `add` entry in the
operation log, one round-trip, and explanation `e`. -/
theorem finish_shortcircuit
    (provider provider2 : Nat → Anthropic.ModelResponse) (domain : String) (now : Nat)
    (st : DomainState) (sel css : String) (d : Option String) (e : String)
    (he : e ≠ "")
    (h1 : provider 1 = .toolUse [.add_rule sel css d, .finish (some e)])
    (h2 : provider2 1 = .toolUse [.finish (some e), .add_rule sel css d]) :
    ((Anthropic.generateStyles provider domain now st).operations = [.add sel css d] ∧
     (Anthropic.generateStyles provider domain now st).explanation = e ∧
     (Anthropic.generateStyles provider domain now st).iterations = 1) ∧
    ((Anthropic.generateStyles provider2 domain now st).operations = [.add sel css d] ∧
     (Anthropic.generateStyles provider2 domain now st).explanation = e ∧
     (Anthropic.generateStyles provider2 domain now st).iterations = 1) := by
  constructor
  · rw [show Anthropic.generateStyles provider domain now st =
      Anthropic.generateStylesGo provider domain now (9 + 1) 0 st [] "Styles updated."
      from rfl]
    simp only [Anthropic.generateStylesGo, Nat.zero_add, h1,
      Anthropic.execBatch, Anthropic.executeTool, he, ne_eq,
      not_false_eq_true, if_true, if_pos]
    refine ⟨?_, ?_, ?_⟩ <;> trivial
  · rw [show Anthropic.generateStyles provider2 domain now st =
      Anthropic.generateStylesGo provider2 domain now (9 + 1) 0 st [] "Styles updated."
      from rfl]
    simp only [Anthropic.generateStylesGo, Nat.zero_add, h2,
      Anthropic.execBatch, Anthropic.executeTool, he, ne_eq,
      not_false_eq_true, if_true, if_pos]
    refine ⟨?_, ?_, ?_⟩ <;> trivial

/-- C3 witness: concrete scripted batches `[add_rule("h",...), finish("done")]`
and `[finish("done"), add_rule("h",...)]`. -/
theorem finish_shortcircuit_witness :
    ((Anthropic.generateStyles
        (fun k => if k = 1
          then .toolUse [.add_rule "h" "h{}" none, .finish (some "done")]
          else .text none) "ex.com" 7 none).operations = [.add "h" "h{}" none] ∧
     (Anthropic.generateStyles
        (fun k => if k = 1
          then .toolUse [.add_rule "h" "h{}" none, .finish (some "done")]
          else .text none) "ex.com" 7 none).explanation = "done" ∧
     (Anthropic.generateStyles
        (fun k => if k = 1
          then .toolUse [.add_rule "h" "h{}" none, .finish (some "done")]
          else .text none) "ex.com" 7 none).iterations = 1) ∧
    ((Anthropic.generateStyles
        (fun k => if k = 1
          then .toolUse [.finish (some "done"), .add_rule "h" "h{}" none]
          else .text none) "ex.com" 7 none).operations = [.add "h" "h{}" none] ∧
     (Anthropic.generateStyles
        (fun k => if k = 1
          then .toolUse [.finish (some "done"), .add_rule "h" "h{}" none]
          else .text none) "ex.com" 7 none).explanation = "done" ∧
     (Anthropic.generateStyles
        (fun k => if k = 1
          then .toolUse [.finish (some "done"), .add_rule "h" "h{}" none]
          else .text none) "ex.com" 7 none).iterations = 1) :=
  finish_shortcircuit
    (fun k => if k = 1
      then .toolUse [.add_rule "h" "h{}" none, .finish (some "done")]
      else .text none)
    (fun k => if k = 1
      then .toolUse [.finish (some "done"), .add_rule "h" "h{}" none]
      else .text none)
    "ex.com" 7 none "h" "h{}" none "done" (by decide) rfl rfl

namespace Anthropic

/-- One loop round-trip whose batch does not finish: consume one unit
of fuel and continue with the batch's state, log and explanation. -/
theorem generateStylesGo_step_silent (provider : Nat → ModelResponse)
    (domain : String) (now n iter : Nat) (st : DomainState)
    (ops : List StyleOperation) (expl : String) (calls : List ToolCall)
    (hp : provider (iter + 1) = .toolUse calls)
    (hb : (execBatch domain now calls st ops false expl).finished = false) :
    generateStylesGo provider domain now (n + 1) iter st ops expl =
      generateStylesGo provider domain now n (iter + 1)
        (execBatch domain now calls st ops false expl).state
        (execBatch domain now calls st ops false expl).ops
        (execBatch domain now calls st ops false expl).explanation := by
  simp only [generateStylesGo, hp, hb, Bool.false_eq_true, if_false]

/-- One loop round-trip answered with non-empty plain text: the loop
breaks with that text as the explanation. -/
theorem generateStylesGo_step_text (provider : Nat → ModelResponse)
    (domain : String) (now n iter : Nat) (st : DomainState)
    (ops : List StyleOperation) (expl : String) (s : String)
    (hp : provider (iter + 1) = .text (some s)) (hs : s ≠ "") :
    generateStylesGo provider domain now (n + 1) iter st ops expl =
      ⟨s, ops, iter + 1, st⟩ := by
  simp only [generateStylesGo, hp, hs, ne_eq, not_false_eq_true, if_true]

end Anthropic

/-- C8: `edit_rule`/`delete_rule` with an id matching no rule return a
failure string as a normal tool result, append no operation-log entry,
leave the storage state unchanged, and the loop proceeds to the next
round-trip (scripted here as a text reply в round 2) instead of
aborting: the run ends normally after round 2 with no logged
operations and the state untouched. -/
theorem notfound_tool_result_is_soft
    (styles : SiteStyles) (domain rid css : String) (d : Option String)
    (ops : List StyleOperation) (now : Nat) (e : String)
    (provider provider2 : Nat → Anthropic.ModelResponse)
    (hno : ∀ r ∈ styles.rules, r.id ≠ rid)
    (he : e ≠ "")
    (hp1 : provider 1 = .toolUse [.edit_rule rid css d])
    (hp2 : provider 2 = .text (some e))
    (hq1 : provider2 1 = .toolUse [.delete_rule rid])
    (hq2 : provider2 2 = .text (some e)) :
    (Anthropic.executeTool (some (.modern styles)) domain ops (.edit_rule rid css d) now =
      (⟨"Error: Rule with ID " ++ rid ++ " not found.", false, none⟩,
       some (.modern styles), ops)) ∧
    (Anthropic.executeTool (some (.modern styles)) domain ops (.delete_rule rid) now =
      (⟨"Error: Rule with ID " ++ rid ++ " not found.", false, none⟩,
       some (.modern styles), ops)) ∧
    (Anthropic.generateStyles provider domain now (some (.modern styles)) =
      ⟨e, [], 2, some (.modern styles)⟩) ∧
    (Anthropic.generateStyles provider2 domain now (some (.modern styles)) =
      ⟨e, [], 2, some (.modern styles)⟩) := by
  have hfind : findIndex (fun r => r.id == rid) styles.rules = none := by
    rw [findIndex_eq_none_iff]
    intro r hr
    simpa using hno r hr
  have hedit : editRule (some (.modern styles)) domain rid css d .ai now =
      (none, some (.modern styles)) := by
    simp only [editRule, getSiteStyles]
    split
    · rfl
    · rename_i i heq
      rw [hfind] at heq
      exact Option.noConfusion heq
  have hdel : deleteRule (some (.modern styles)) domain rid now =
      (false, some (.modern styles)) := by
    simp only [deleteRule, getSiteStyles]
    split
    · rfl
    · rename_i i heq
      rw [hfind] at heq
      exact Option.noConfusion heq
  have hexEdit : ∀ ops' : List StyleOperation,
      Anthropic.executeTool (some (.modern styles)) domain ops' (.edit_rule rid css d) now =
      (⟨"Error: Rule with ID " ++ rid ++ " not found.", false, none⟩,
       some (.modern styles), ops') := by
    intro ops'
    simp only [Anthropic.executeTool, hedit]
  have hexDel : ∀ ops' : List StyleOperation,
      Anthropic.executeTool (some (.modern styles)) domain ops' (.delete_rule rid) now =
      (⟨"Error: Rule with ID " ++ rid ++ " not found.", false, none⟩,
       some (.modern styles), ops') := by
    intro ops'
    simp only [Anthropic.executeTool, hdel, Bool.false_eq_true, if_false]
  refine ⟨hexEdit ops, hexDel ops, ?_, ?_⟩
  · have hbatch : Anthropic.execBatch domain now [.edit_rule rid css d]
        (some (.modern styles)) [] false "Styles updated." =
        ⟨some (.modern styles), [], false, "Styles updated."⟩ := by
      simp only [Anthropic.execBatch, hexEdit]
    rw [show Anthropic.generateStyles provider domain now (some (.modern styles)) =
      Anthropic.generateStylesGo provider domain now (9 + 1) 0 (some (.modern styles)) []
        "Styles updated." from rfl]
    rw [Anthropic.generateStylesGo_step_silent provider domain now 9 0
      (some (.modern styles)) [] "Styles updated." [.edit_rule rid css d] hp1
      (by rw [hbatch])]
    rw [hbatch]
    rw [show (9 : Nat) = 8 + 1 from rfl]
    rw [Anthropic.generateStylesGo_step_text provider domain now 8 (0 + 1)
      (some (.modern styles)) [] "Styles updated." e hp2 he]
  · have hbatch : Anthropic.execBatch domain now [.delete_rule rid]
        (some (.modern styles)) [] false "Styles updated." =
        ⟨some (.modern styles), [], false, "Styles updated."⟩ := by
      simp only [Anthropic.execBatch, hexDel]
    rw [show Anthropic.generateStyles provider2 domain now (some (.modern styles)) =
      Anthropic.generateStylesGo provider2 domain now (9 + 1) 0 (some (.modern styles)) []
        "Styles updated." from rfl]
    rw [Anthropic.generateStylesGo_step_silent provider2 domain now 9 0
      (some (.modern styles)) [] "Styles updated." [.delete_rule rid] hq1
      (by rw [hbatch])]
    rw [hbatch]
    rw [show (9 : Nat) = 8 + 1 from rfl]
    rw [Anthropic.generateStylesGo_step_text provider2 domain now 8 (0 + 1)
      (some (.modern styles)) [] "Styles updated." e hq2 he]

/-- C8 witness: one stored rule `header`, tool calls targeting the
unknown id `.missing`. -/
theorem notfound_tool_result_is_soft_witness :
    (Anthropic.executeTool
      (some (.modern ⟨"d", [⟨"header", "header", "header{}", none, .ai, none, 1, 1⟩], true, 1, 1⟩))
      "d" [] (.edit_rule ".missing" "x{}" none) 9 =
      (⟨"Error: Rule with ID " ++ ".missing" ++ " not found.", false, none⟩,
       some (.modern ⟨"d", [⟨"header", "header", "header{}", none, .ai, none, 1, 1⟩], true, 1, 1⟩),
       [])) ∧
    (Anthropic.executeTool
      (some (.modern ⟨"d", [⟨"header", "header", "header{}", none, .ai, none, 1, 1⟩], true, 1, 1⟩))
      "d" [] (.delete_rule ".missing") 9 =
      (⟨"Error: Rule with ID " ++ ".missing" ++ " not found.", false, none⟩,
       some (.modern ⟨"d", [⟨"header", "header", "header{}", none, .ai, none, 1, 1⟩], true, 1, 1⟩),
       [])) ∧
    (Anthropic.generateStyles
      (fun k => if k = 1 then .toolUse [.edit_rule ".missing" "x{}" none]
        else .text (some "ok")) "d" 9
      (some (.modern ⟨"d", [⟨"header", "header", "header{}", none, .ai, none, 1, 1⟩], true, 1, 1⟩)) =
      ⟨"ok", [], 2,
       some (.modern ⟨"d", [⟨"header", "header", "header{}", none, .ai, none, 1, 1⟩], true, 1, 1⟩)⟩) ∧
    (Anthropic.generateStyles
      (fun k => if k = 1 then .toolUse [.delete_rule ".missing"]
        else .text (some "ok")) "d" 9
      (some (.modern ⟨"d", [⟨"header", "header", "header{}", none, .ai, none, 1, 1⟩], true, 1, 1⟩)) =
      ⟨"ok", [], 2,
       some (.modern ⟨"d", [⟨"header", "header", "header{}", none, .ai, none, 1, 1⟩], true, 1, 1⟩)⟩) :=
  notfound_tool_result_is_soft
    ⟨"d", [⟨"header", "header", "header{}", none, .ai, none, 1, 1⟩], true, 1, 1⟩
    "d" ".missing" "x{}" none [] 9 "ok"
    (fun k => if k = 1 then .toolUse [.edit_rule ".missing" "x{}" none]
      else .text (some "ok"))
    (fun k => if k = 1 then .toolUse [.delete_rule ".missing"]
      else .text (some "ok"))
    (by decide) (by decide) rfl rfl rfl rfl

/-! ### Gemini-loop step lemmas (the recursion is well-founded, so all
evaluation goes through its equation lemma) -/

namespace Gemini

/-- 401/403: fatal credential error after a single fetch. -/
theorem go_http_invalid_key (provider : Nat → GeminiFetch) (domain : String)
    (now iter retry fetches : Nat) (st : DomainState) (ops : List StyleOperation)
    (expl : String) (s : Nat) (hi : iter < MAX_TOOL_ITERATIONS)
    (hp : provider (fetches + 1) = .http s) (hs : s = 401 ∨ s = 403) :
    generateStylesGo provider domain now iter retry fetches st ops expl =
      ⟨.err "Invalid API key. Please check your Google AI API key.",
       fetches + 1, iter + 1, st⟩ := by
  rw [generateStylesGo]
  simp only [hi, dif_pos, hp, hs, if_pos]

/-- 429: fatal rate-limit error after a single fetch. -/
theorem go_http_rate_limit (provider : Nat → GeminiFetch) (domain : String)
    (now iter retry fetches : Nat) (st : DomainState) (ops : List StyleOperation)
    (expl : String) (hi : iter < MAX_TOOL_ITERATIONS)
    (hp : provider (fetches + 1) = .http 429) :
    generateStylesGo provider domain now iter retry fetches st ops expl =
      ⟨.err "Rate limit exceeded. Please try again later.",
       fetches + 1, iter + 1, st⟩ := by
  rw [generateStylesGo]
  rw [dif_pos hi]
  simp [hp]

/-- 500 with retry budget left: one more fetch, `iteration--`, continue. -/
theorem go_http_500_retry (provider : Nat → GeminiFetch) (domain : String)
    (now iter retry fetches : Nat) (st : DomainState) (ops : List StyleOperation)
    (expl : String) (hi : iter < MAX_TOOL_ITERATIONS) (hr : retry < 2)
    (hp : provider (fetches + 1) = .http 500) :
    generateStylesGo provider domain now iter retry fetches st ops expl =
      generateStylesGo provider domain now iter (retry + 1) (fetches + 1) st ops expl := by
  rw [generateStylesGo]
  rw [dif_pos hi]
  simp [hp, hr]

/-- Any other non-ok status (including a 500 with the retry budget
exhausted, and every other 5xx): fatal after this fetch. -/
theorem go_http_other (provider : Nat → GeminiFetch) (domain : String)
    (now iter retry fetches : Nat) (st : DomainState) (ops : List StyleOperation)
    (expl : String) (s : Nat) (hi : iter < MAX_TOOL_ITERATIONS)
    (hp : provider (fetches + 1) = .http s)
    (hs1 : ¬(s = 401 ∨ s = 403)) (hs2 : s ≠ 429) (hs3 : ¬(s = 500 ∧ retry < 2)) :
    generateStylesGo provider domain now iter retry fetches st ops expl =
      ⟨.err ("API request failed with status " ++ toString s),
       fetches + 1, iter + 1, st⟩ := by
  rw [generateStylesGo]
  rw [dif_pos hi]
  simp [hp, hs1, hs2, hs3]

/-- Ok response with function calls whose batch does not finish:
consume one iteration and continue with the batch results. -/
theorem go_success_calls_silent (provider : Nat → GeminiFetch) (domain : String)
    (now iter retry fetches : Nat) (st : DomainState) (ops : List StyleOperation)
    (expl : String) (calls : List GToolCall) (text : Option String)
    (hi : iter < MAX_TOOL_ITERATIONS)
    (hp : provider (fetches + 1) = .success calls text)
    (hc : calls.length > 0)
    (hb : (execBatch domain now calls st ops false expl).finished = false) :
    generateStylesGo provider domain now iter retry fetches st ops expl =
      generateStylesGo provider domain now (iter + 1) retry (fetches + 1)
        (execBatch domain now calls st ops false expl).state
        (execBatch domain now calls st ops false expl).ops
        (execBatch domain now calls st ops false expl).explanation := by
  rw [generateStylesGo]
  rw [dif_pos hi]
  simp [hp, hc, hb]

/-- Ok response with no function calls but a non-empty text part: the
loop breaks with that text as the explanation. -/
theorem go_success_text (provider : Nat → GeminiFetch) (domain : String)
    (now iter retry fetches : Nat) (st : DomainState) (ops : List StyleOperation)
    (expl : String) (s : String) (hi : iter < MAX_TOOL_ITERATIONS)
    (hp : provider (fetches + 1) = .success [] (some s)) (hs : s ≠ "") :
    generateStylesGo provider domain now iter retry fetches st ops expl =
      ⟨.ok s ops, fetches + 1, iter + 1, st⟩ := by
  rw [generateStylesGo]
  rw [dif_pos hi]
  simp [hp, hs]

/-- Iteration budget exhausted: return the running explanation. -/
theorem go_exit (provider : Nat → GeminiFetch) (domain : String)
    (now iter retry fetches : Nat) (st : DomainState) (ops : List StyleOperation)
    (expl : String) (hi : ¬ iter < MAX_TOOL_ITERATIONS) :
    generateStylesGo provider domain now iter retry fetches st ops expl =
      ⟨.ok expl ops, fetches, iter, st⟩ := by
  rw [generateStylesGo]
  rw [dif_neg hi]

/-- A `list_rules` batch over an empty storage slot changes nothing. -/
theorem execBatch_listrules (domain : String) (now : Nat)
    (ops : List StyleOperation) (expl : String) :
    execBatch domain now [.list_rules] none ops false expl =
      ⟨none, ops, false, expl⟩ := rfl

/-- Rounds of `list_rules`-only responses over an empty slot: each
consumes exactly one iteration and one fetch until the cap. -/
theorem go_listrules_rounds (provider : Nat → GeminiFetch) (domain : String)
    (now : Nat) (j : Nat) :
    ∀ (iter retry fetches : Nat) (ops : List StyleOperation) (expl : String),
    iter + j = MAX_TOOL_ITERATIONS →
    (∀ k, fetches < k → k ≤ fetches + j → provider k = .success [.list_rules] none) →
    generateStylesGo provider domain now iter retry fetches none ops expl =
      ⟨.ok expl ops, fetches + j, MAX_TOOL_ITERATIONS, none⟩ := by
  induction j with
  | zero =>
      intro iter retry fetches ops expl hiter _
      rw [go_exit provider domain now iter retry fetches none ops expl (by omega)]
      rw [show fetches + 0 = fetches from rfl, show iter = MAX_TOOL_ITERATIONS by omega]
  | succ n ih =>
      intro iter retry fetches ops expl hiter hp
      have hi : iter < MAX_TOOL_ITERATIONS := by
        have : MAX_TOOL_ITERATIONS = 10 := rfl
        omega
      rw [go_success_calls_silent provider domain now iter retry fetches none ops expl
        [.list_rules] none hi (hp (fetches + 1) (by omega) (by omega)) (by simp)
        (by rw [execBatch_listrules])]
      rw [execBatch_listrules]
      rw [ih (iter + 1) retry (fetches + 1) ops expl (by omega)
        (fun k h1 h2 => hp k (by omega) (by omega))]
      have : fetches + 1 + n = fetches + (n + 1) := by omega
      rw [this]

end Gemini

/-- C9 counterexample: a 503 from the provider is *not* retried — the
run terminates on the very first fetch with the generic error (a retry
would have issued a second fetch), contradicting 'every server-side
5xx response is retried'.  Only status 500 enters the retry branch. -/
theorem gemini_503_not_retried :
    Gemini.generateStyles
      (fun k => if k = 1 then .http 503 else .success [] (some "t")) "d" 7 none =
      ⟨.err "API request failed with status 503", 1, 1, none⟩ := by
  rw [show Gemini.generateStyles
      (fun k => if k = 1 then .http 503 else .success [] (some "t")) "d" 7 none =
      Gemini.generateStylesGo
        (fun k => if k = 1 then .http 503 else .success [] (some "t")) "d" 7
        0 0 0 none [] "Styles updated." from rfl]
  rw [Gemini.go_http_other
    (fun k => if k = 1 then .http 503 else .success [] (some "t")) "d" 7
    0 0 0 none [] "Styles updated." 503 (by decide) rfl
    (by decide) (by decide) (by decide)]
  decide

/-- C9 (amended): in the Gemini agent loop, a 401 or 403 (bad
credential) and a 429 (rate limit) terminate the run immediately with
a surfaced error and are never retried; a response with status exactly
500 is retried at most 2 times per run with a fixed backoff (the sleep
is outside the model), without consuming an iteration of the
10-round-trip budget — after two 500s the run can still use all 10
iterations — while a third 500, like any other 5xx status, is fatal
immediately. -/
theorem gemini_retry_policy
    (domain : String) (now : Nat) (st : DomainState) (e : String)
    (p401 p403 p429 pRetry pFatal pBudget : Nat → Gemini.GeminiFetch)
    (he : e ≠ "")
    (h401 : p401 1 = .http 401)
    (h403 : p403 1 = .http 403)
    (h429 : p429 1 = .http 429)
    (hr1 : pRetry 1 = .http 500) (hr2 : pRetry 2 = .http 500)
    (hr3 : pRetry 3 = .success [] (some e))
    (hf1 : pFatal 1 = .http 500) (hf2 : pFatal 2 = .http 500) (hf3 : pFatal 3 = .http 500)
    (hb1 : pBudget 1 = .http 500) (hb2 : pBudget 2 = .http 500)
    (hbk : ∀ k, 3 ≤ k → k ≤ 12 → pBudget k = .success [.list_rules] none) :
    Gemini.generateStyles p401 domain now st =
      ⟨.err "Invalid API key. Please check your Google AI API key.", 1, 1, st⟩ ∧
    Gemini.generateStyles p403 domain now st =
      ⟨.err "Invalid API key. Please check your Google AI API key.", 1, 1, st⟩ ∧
    Gemini.generateStyles p429 domain now st =
      ⟨.err "Rate limit exceeded. Please try again later.", 1, 1, st⟩ ∧
    Gemini.generateStyles pRetry domain now st = ⟨.ok e [], 3, 1, st⟩ ∧
    Gemini.generateStyles pFatal domain now st =
      ⟨.err ("API request failed with status " ++ toString 500), 3, 1, st⟩ ∧
    Gemini.generateStyles pBudget domain now none =
      ⟨.ok "Styles updated." [], 12, 10, none⟩ := by
  refine ⟨?_, ?_, ?_, ?_, ?_, ?_⟩
  · exact Gemini.go_http_invalid_key p401 domain now 0 0 0 st [] "Styles updated."
      401 (by decide) h401 (Or.inl rfl)
  · exact Gemini.go_http_invalid_key p403 domain now 0 0 0 st [] "Styles updated."
      403 (by decide) h403 (Or.inr rfl)
  · exact Gemini.go_http_rate_limit p429 domain now 0 0 0 st [] "Styles updated."
      (by decide) h429
  · rw [show Gemini.generateStyles pRetry domain now st =
      Gemini.generateStylesGo pRetry domain now 0 0 0 st [] "Styles updated." from rfl]
    rw [Gemini.go_http_500_retry pRetry domain now 0 0 0 st [] "Styles updated."
      (by decide) (by decide) hr1]
    rw [Gemini.go_http_500_retry pRetry domain now 0 1 1 st [] "Styles updated."
      (by decide) (by decide) hr2]
    rw [Gemini.go_success_text pRetry domain now 0 2 2 st [] "Styles updated." e
      (by decide) hr3 he]
  · rw [show Gemini.generateStyles pFatal domain now st =
      Gemini.generateStylesGo pFatal domain now 0 0 0 st [] "Styles updated." from rfl]
    rw [Gemini.go_http_500_retry pFatal domain now 0 0 0 st [] "Styles updated."
      (by decide) (by decide) hf1]
    rw [Gemini.go_http_500_retry pFatal domain now 0 1 1 st [] "Styles updated."
      (by decide) (by decide) hf2]
    rw [Gemini.go_http_other pFatal domain now 0 2 2 st [] "Styles updated." 500
      (by decide) hf3 (by decide) (by decide) (by decide)]
  · rw [show Gemini.generateStyles pBudget domain now none =
      Gemini.generateStylesGo pBudget domain now 0 0 0 none [] "Styles updated." from rfl]
    rw [Gemini.go_http_500_retry pBudget domain now 0 0 0 none [] "Styles updated."
      (by decide) (by decide) hb1]
    rw [Gemini.go_http_500_retry pBudget domain now 0 1 1 none [] "Styles updated."
      (by decide) (by decide) hb2]
    rw [Gemini.go_listrules_rounds pBudget domain now 10 0 2 2 [] "Styles updated."
      (by decide) (fun k h1 h2 => hbk k (by omega) (by omega))]
    rfl

/-- C9 witness: concrete scripted providers for all six scenarios. -/
theorem gemini_retry_policy_witness :
    Gemini.generateStyles (fun _ => .http 401) "d" 7 none =
      ⟨.err "Invalid API key. Please check your Google AI API key.", 1, 1, none⟩ ∧
    Gemini.generateStyles (fun _ => .http 403) "d" 7 none =
      ⟨.err "Invalid API key. Please check your Google AI API key.", 1, 1, none⟩ ∧
    Gemini.generateStyles (fun _ => .http 429) "d" 7 none =
      ⟨.err "Rate limit exceeded. Please try again later.", 1, 1, none⟩ ∧
    Gemini.generateStyles
      (fun k => if k ≤ 2 then .http 500 else .success [] (some "done")) "d" 7 none =
      ⟨.ok "done" [], 3, 1, none⟩ ∧
    Gemini.generateStyles (fun _ => .http 500) "d" 7 none =
      ⟨.err ("API request failed with status " ++ toString 500), 3, 1, none⟩ ∧
    Gemini.generateStyles
      (fun k => if k ≤ 2 then .http 500 else .success [.list_rules] none) "d" 7 none =
      ⟨.ok "Styles updated." [], 12, 10, none⟩ :=
  gemini_retry_policy "d" 7 none "done"
    (fun _ => .http 401) (fun _ => .http 403) (fun _ => .http 429)
    (fun k => if k ≤ 2 then .http 500 else .success [] (some "done"))
    (fun _ => .http 500)
    (fun k => if k ≤ 2 then .http 500 else .success [.list_rules] none)
    (by decide) rfl rfl rfl rfl rfl rfl rfl rfl rfl rfl rfl
    (fun k h1 h2 => by
      have hk : ¬ k ≤ 2 := by omega
      simp [hk])

/-! ### Lemmas for the id-uniqueness invariant (C1) -/

/-- Setting index `i` to a rule with the same id leaves the id list
unchanged. -/
theorem map_id_set_of_id_eq (rules : List StyleRule) :
    ∀ (i : Nat) (u : StyleRule) (h : i < rules.length),
    u.id = (rules.get ⟨i, h⟩).id →
    (rules.set i u).map (fun r => r.id) = rules.map (fun r => r.id) := by
  induction rules with
  | nil => intro i u h; simp at h
  | cons a as ih =>
      intro i u h hid
      cases i with
      | zero => simpa using hid
      | succ j =>
          simp only [List.set_cons_succ, List.map_cons, List.cons.injEq, true_and]
          exact ih j u (by simpa using h) (by simpa using hid)

/-- Appending a fresh id preserves distinctness. -/
theorem nodup_append_singleton {ids : List String} {x : String}
    (h : ids.Nodup) (hx : x ∉ ids) : (ids ++ [x]).Nodup := by
  rw [List.nodup_append]
  exact ⟨h, List.nodup_singleton x, by
    intro a ha hmem
    simp only [List.mem_singleton] at hmem
    exact hx (hmem ▸ ha)⟩

/-- The element at a just-set index. -/
theorem getElem?_set_self (l : List α) :
    ∀ (i : Nat) (u : α), i < l.length → (l.set i u)[i]? = some u := by
  induction l with
  | nil => intro i u h; simp at h
  | cons a as ih =>
      intro i u h
      cases i with
      | zero => simp
      | succ j => simpa using ih j u (by simpa using h)

/-- Setting index `i` to a rule with the same id preserves
distinctness of the ids. -/
theorem nodup_set_of_id_eq (rules : List StyleRule) (i : Nat) (u : StyleRule)
    (h : i < rules.length) (hid : u.id = (rules.get ⟨i, h⟩).id)
    (hnd : (rules.map (fun r => r.id)).Nodup) :
    ((rules.set i u).map (fun r => r.id)).Nodup := by
  rw [map_id_set_of_id_eq rules i u h hid]
  exact hnd

/-- A migrated legacy aggregate has at most one rule, so its ids are
trivially distinct. -/
theorem migrate_ids_nodup (l : LegacySiteStyles) :
    ((migrateLegacyStyles l).rules.map (fun r => r.id)).Nodup := by
  simp only [migrateLegacyStyles]
  split <;> simp

/-- If `findIndex` misses, the candidate id is not among the ids. -/
theorem not_mem_ids_of_findIndex_none {rules : List StyleRule} {rid : String}
    (h : findIndex (fun r => r.id == rid) rules = none) :
    rid ∉ rules.map (fun r => r.id) := by
  intro hmem
  obtain ⟨r, hr, hrid⟩ := List.mem_map.mp hmem
  have := findIndex_eq_none_iff.mp h r hr
  simp [hrid] at this

/-- `addRule` preserves id-uniqueness of the stored collection. -/
theorem addRule_preserves_idsNodup (st : DomainState) (domain : String)
    (rule : RuleInput) (now : Nat) (h : idsNodup st) :
    idsNodup (addRule st domain rule now).2 := by
  match st with
  | none =>
      simp [addRule, getSiteStyles, idsNodup, ruleIds, saveSiteStyles]
  | some (.modern styles) =>
      have hnd : (styles.rules.map (fun r => r.id)).Nodup := by
        simpa [idsNodup, ruleIds] using h
      simp only [addRule, getSiteStyles]
      split
      · rename_i i heq
        simp only [idsNodup, ruleIds, saveSiteStyles]
        exact nodup_set_of_id_eq styles.rules i _ (findIndex_lt_length heq) rfl hnd
      · rename_i heq
        simp only [idsNodup, ruleIds, saveSiteStyles, List.map_append, List.map_cons,
          List.map_nil]
        exact nodup_append_singleton hnd (not_mem_ids_of_findIndex_none heq)
  | some (.legacy l) =>
      have hnd := migrate_ids_nodup l
      simp only [addRule, getSiteStyles]
      split
      · rename_i i heq
        simp only [idsNodup, ruleIds, saveSiteStyles]
        exact nodup_set_of_id_eq (migrateLegacyStyles l).rules i _
          (findIndex_lt_length heq) rfl hnd
      · rename_i heq
        simp only [idsNodup, ruleIds, saveSiteStyles, List.map_append, List.map_cons,
          List.map_nil]
        exact nodup_append_singleton hnd (not_mem_ids_of_findIndex_none heq)

/-- `editRule` preserves id-uniqueness of the stored collection. -/
theorem editRule_preserves_idsNodup (st : DomainState) (domain rid css : String)
    (d : Option String) (ub : Provenance) (now : Nat) (h : idsNodup st) :
    idsNodup (editRule st domain rid css d ub now).2 := by
  match st with
  | none => exact h
  | some (.modern styles) =>
      have hnd : (styles.rules.map (fun r => r.id)).Nodup := by
        simpa [idsNodup, ruleIds] using h
      simp only [editRule, getSiteStyles]
      split
      · exact h
      · rename_i i heq
        simp only [idsNodup, ruleIds, saveSiteStyles]
        exact nodup_set_of_id_eq styles.rules i _ (findIndex_lt_length heq) rfl hnd
  | some (.legacy l) =>
      have hnd := migrate_ids_nodup l
      simp only [editRule, getSiteStyles]
      split
      · simpa [idsNodup, ruleIds, saveSiteStyles] using hnd
      · rename_i i heq
        simp only [idsNodup, ruleIds, saveSiteStyles]
        exact nodup_set_of_id_eq (migrateLegacyStyles l).rules i _
          (findIndex_lt_length heq) rfl hnd

/-- `deleteRule` preserves id-uniqueness of the stored collection. -/
theorem deleteRule_preserves_idsNodup (st : DomainState) (domain rid : String)
    (now : Nat) (h : idsNodup st) :
    idsNodup (deleteRule st domain rid now).2 := by
  match st with
  | none => exact h
  | some (.modern styles) =>
      have hnd : (styles.rules.map (fun r => r.id)).Nodup := by
        simpa [idsNodup, ruleIds] using h
      simp only [deleteRule, getSiteStyles]
      split
      · exact h
      · rename_i i _
        simp only [idsNodup, ruleIds, saveSiteStyles]
        exact ((styles.rules.eraseIdx_sublist i).map (fun r => r.id)).nodup hnd
  | some (.legacy l) =>
      have hnd := migrate_ids_nodup l
      simp only [deleteRule, getSiteStyles]
      split
      · simpa [idsNodup, ruleIds, saveSiteStyles] using hnd
      · rename_i i _
        simp only [idsNodup, ruleIds, saveSiteStyles]
        exact (((migrateLegacyStyles l).rules.eraseIdx_sublist i).map
          (fun r => r.id)).nodup hnd

/-- Any sequence of add/edit/delete mutations preserves id-uniqueness. -/
theorem applyOps_preserves_idsNodup (domain : String) :
    ∀ (ops : List (StoreOp × Nat)) (st : DomainState), idsNodup st →
    idsNodup (applyOps st domain ops) := by
  intro ops
  induction ops with
  | nil => intro st h; exact h
  | cons p rest ih =>
      intro st h
      rcases p with ⟨op, now⟩
      have hstep : idsNodup (applyOp st domain op now) := by
        cases op with
        | add rule => exact addRule_preserves_idsNodup st domain rule now h
        | edit rid css d ub => exact editRule_preserves_idsNodup st domain rid css d ub now h
        | del rid => exact deleteRule_preserves_idsNodup st domain rid now h
      exact ih (applyOp st domain op now) hstep

/-- C1: `addRule` with a selector normalizing to an existing rule's id
performs an in-place update, not an insert: the returned rule carries
the caller's `css` and `description`, its `updatedBy` is the caller's
`createdBy`, its id is the matched rule's id, and its `updatedAt`
strictly increases (given a strictly advancing clock); the persisted
collection has unchanged length, holds the updated rule at the matched
index, and its id list is unchanged.  Consequently — last conjunct —
id-uniqueness of a domain's rule collection is preserved by every
sequence of add/edit/delete mutations. -/
theorem addRule_upsert_and_id_unique
    (styles : SiteStyles) (domain : String) (rule : RuleInput) (now : Nat)
    (i : Nat) (old : StyleRule)
    (hfi : findIndex (fun r => r.id == selectorToId rule.selector) styles.rules = some i)
    (hold : styles.rules[i]? = some old)
    (hnow : old.updatedAt < now) :
    ((addRule (some (.modern styles)) domain rule now).1.css = rule.css ∧
     (addRule (some (.modern styles)) domain rule now).1.description = rule.description ∧
     (addRule (some (.modern styles)) domain rule now).1.updatedBy = some rule.createdBy ∧
     (addRule (some (.modern styles)) domain rule now).1.id = old.id ∧
     old.updatedAt < (addRule (some (.modern styles)) domain rule now).1.updatedAt ∧
     (storedRules (addRule (some (.modern styles)) domain rule now).2).length =
       styles.rules.length ∧
     (storedRules (addRule (some (.modern styles)) domain rule now).2)[i]? =
       some (addRule (some (.modern styles)) domain rule now).1 ∧
     (storedRules (addRule (some (.modern styles)) domain rule now).2).map
       (fun r => r.id) = styles.rules.map (fun r => r.id)) ∧
    (∀ (st : DomainState), idsNodup st →
      ∀ ops : List (StoreOp × Nat), idsNodup (applyOps st domain ops)) := by
  have hlt : i < styles.rules.length := findIndex_lt_length hfi
  have hget : styles.rules.get ⟨i, hlt⟩ = old := by
    have h1 : styles.rules[i]? = some (styles.rules.get ⟨i, hlt⟩) := by
      rw [List.getElem?_eq_getElem hlt]
      simp
    rw [hold] at h1
    exact (Option.some.injEq _ _ ▸ h1).symm
  have hres : addRule (some (.modern styles)) domain rule now =
      ({ styles.rules.get ⟨i, hlt⟩ with
          css := rule.css, description := rule.description,
          updatedBy := some rule.createdBy, updatedAt := now },
       saveSiteStyles domain
        { styles with
          rules := styles.rules.set i { styles.rules.get ⟨i, hlt⟩ with css := rule.css, description := rule.description, updatedBy := some rule.createdBy, updatedAt := now } } now) := by
    simp only [addRule, getSiteStyles]
    split
    · rename_i j heq
      rw [hfi] at heq
      injection heq with hj
      subst hj
      rfl
    · rename_i heq
      rw [hfi] at heq
      exact Option.noConfusion heq
  constructor
  · rw [hres]
    refine ⟨rfl, rfl, rfl, ?_, ?_, ?_, ?_, ?_⟩
    · show (styles.rules.get ⟨i, hlt⟩).id = old.id
      rw [hget]
    · show old.updatedAt < now
      exact hnow
    · show (styles.rules.set i _).length = styles.rules.length
      simp
    · show (styles.rules.set i _)[i]? = some _
      exact getElem?_set_self styles.rules i _ hlt
    · exact map_id_set_of_id_eq styles.rules i _ hlt rfl
  · intro st h ops
    exact applyOps_preserves_idsNodup domain ops st h

/-- C1 witness: a one-rule collection, an `add` whose selector
normalizes to the stored id, and the invariant instance. -/
theorem addRule_upsert_and_id_unique_witness :
    ((addRule
        (some (.modern ⟨"d", [⟨"header", "header", "h{}", none, .ai, none, 1, 1⟩], true, 1, 1⟩))
        "d" ⟨" header ", "h{color:red}", some "x", .user⟩ 9).1.css = "h{color:red}" ∧
     (addRule
        (some (.modern ⟨"d", [⟨"header", "header", "h{}", none, .ai, none, 1, 1⟩], true, 1, 1⟩))
        "d" ⟨" header ", "h{color:red}", some "x", .user⟩ 9).1.description = some "x" ∧
     (addRule
        (some (.modern ⟨"d", [⟨"header", "header", "h{}", none, .ai, none, 1, 1⟩], true, 1, 1⟩))
        "d" ⟨" header ", "h{color:red}", some "x", .user⟩ 9).1.updatedBy = some .user ∧
     (addRule
        (some (.modern ⟨"d", [⟨"header", "header", "h{}", none, .ai, none, 1, 1⟩], true, 1, 1⟩))
        "d" ⟨" header ", "h{color:red}", some "x", .user⟩ 9).1.id =
       (⟨"header", "header", "h{}", none, .ai, none, 1, 1⟩ : StyleRule).id ∧
     (⟨"header", "header", "h{}", none, .ai, none, 1, 1⟩ : StyleRule).updatedAt <
       (addRule
        (some (.modern ⟨"d", [⟨"header", "header", "h{}", none, .ai, none, 1, 1⟩], true, 1, 1⟩))
        "d" ⟨" header ", "h{color:red}", some "x", .user⟩ 9).1.updatedAt ∧
     (storedRules (addRule
        (some (.modern ⟨"d", [⟨"header", "header", "h{}", none, .ai, none, 1, 1⟩], true, 1, 1⟩))
        "d" ⟨" header ", "h{color:red}", some "x", .user⟩ 9).2).length =
       [(⟨"header", "header", "h{}", none, .ai, none, 1, 1⟩ : StyleRule)].length ∧
     (storedRules (addRule
        (some (.modern ⟨"d", [⟨"header", "header", "h{}", none, .ai, none, 1, 1⟩], true, 1, 1⟩))
        "d" ⟨" header ", "h{color:red}", some "x", .user⟩ 9).2)[0]? =
       some (addRule
        (some (.modern ⟨"d", [⟨"header", "header", "h{}", none, .ai, none, 1, 1⟩], true, 1, 1⟩))
        "d" ⟨" header ", "h{color:red}", some "x", .user⟩ 9).1 ∧
     (storedRules (addRule
        (some (.modern ⟨"d", [⟨"header", "header", "h{}", none, .ai, none, 1, 1⟩], true, 1, 1⟩))
        "d" ⟨" header ", "h{color:red}", some "x", .user⟩ 9).2).map (fun r => r.id) =
       [(⟨"header", "header", "h{}", none, .ai, none, 1, 1⟩ : StyleRule)].map
         (fun r => r.id)) ∧
    (∀ (st : DomainState), idsNodup st →
      ∀ ops : List (StoreOp × Nat), idsNodup (applyOps st "d" ops)) :=
  addRule_upsert_and_id_unique
    ⟨"d", [⟨"header", "header", "h{}", none, .ai, none, 1, 1⟩], true, 1, 1⟩
    "d" ⟨" header ", "h{color:red}", some "x", .user⟩ 9 0
    ⟨"header", "header", "h{}", none, .ai, none, 1, 1⟩
    (by decide) (by decide) (by decide)

end Rasa
